import Mathlib

/-!
# Media micro-services request handlers

A shallow embedding of the request handlers of `mediaMicroservices/src`
(`UserReviewHandler.h`, `PageHandler.h`, `RatingHandler.h`, `TextHandler.h`)
and the properties established about them.

Conventions of the embedding.

* A handler call is a pure function of the handler, of the outcomes of its
  dependencies during that call (an `...Env` record: whether each pool
  acquisition yields a connection, whether each operation throws, what each
  remote service answers) and of the state of the stores it touches. It returns
  an `Outcome`: the value returned or the exception thrown, the list of the
  dependency operations it issued, and the state of the stores afterwards.
* The trace lists the operations of one call in the order the source launches
  them; the operations of one `std::async` task are kept together. Tracing
  spans and log lines are not part of the trace.
* `int32_t` / `int64_t` values are `Int`. The only arithmetic the handlers do
  on them is `stop - 1` and `start + review_ids.size()` with
  `0 <= start < stop`, which cannot overflow.
-/

set_option linter.unusedVariables false

namespace media_service

/-! ## Errors, pools and the trace of a call -/

/-- The error kinds of `ErrorCode` that the handlers raise themselves. -/
inductive ErrorCode
  | SE_THRIFT_CONN_ERROR
  | SE_REDIS_ERROR
  | SE_MONGODB_ERROR
  deriving DecidableEq, Repr

/-- What a handler can throw: a `ServiceException` (its own, or one propagated
from a remote call), or any other exception (`cpp_redis::redis_error`,
a Thrift transport exception, ...). -/
inductive Exn
  | ServiceException (errorCode : ErrorCode) (message : String)
  | other (what : String)
  deriving DecidableEq, Repr

/-- The connection pools held by the handlers, named after the members that
hold them. -/
inductive Pool
  | memcached_client_pool
  | mongodb_client_pool
  | review_client_pool
  | movie_info_client_pool
  | movie_review_client_pool
  | cast_info_client_pool
  | plot_client_pool
  | compose_client_pool
  | redis_client_pool
  deriving DecidableEq, Repr

/-- One dependency operation issued by a handler call. `Pop p true` is an
acquisition that yields a connection, `Pop p false` one that yields none;
`commit false` is a `commit()` / `sync_commit()` that throws. -/
inductive Event
  | sleep_for (ms : Int)
  | Pop (pool : Pool) (ok : Bool)
  | Push (pool : Pool)
  | zrevrange (key : Int) (start stop : Int)
  | zadd (key : Int) (score_members : List (Int × Int))
  | del (key : Int)
  | incrby (key : String) (increment : Int)
  | incr (key : String)
  | commit (ok : Bool)
  | mongoc_client_get_collection (ok : Bool)
  | mongoc_collection_find_with_opts (user_id : Int) (slice : Option Int)
  | mongoc_collection_insert_one (user_id review_id timestamp : Int) (ok : Bool)
  | mongoc_collection_find_and_modify (user_id review_id timestamp : Int) (ok : Bool)
  | ReadReviews (req_id : Int) (review_ids : List Int)
  | ReadMovieInfo (req_id : Int) (movie_id : String)
  | ReadMovieReviews (req_id : Int) (movie_id : String) (start stop : Int)
  | ReadCastInfo (req_id : Int) (cast_info_ids : List Int)
  | ReadPlot (req_id : Int) (plot_id : Int)
  | UploadRating (req_id : Int) (rating : Int)
  | UploadText (req_id : Int) (text : String)
  deriving DecidableEq, Repr

/-- What a handler call amounts to: the value returned or the exception thrown,
the operations issued, and the stores afterwards. -/
structure Outcome (σ α : Type) where
  result : Except Exn α
  trace : List Event
  state : σ

/-- Is the event an access to the durable store (its pool or one of its
operations)? -/
def Event.isMongo : Event → Bool
  | .Pop .mongodb_client_pool _ => true
  | .Push .mongodb_client_pool => true
  | .mongoc_client_get_collection _ => true
  | .mongoc_collection_find_with_opts _ _ => true
  | .mongoc_collection_insert_one _ _ _ _ => true
  | .mongoc_collection_find_and_modify _ _ _ _ => true
  | _ => false

/-- Number of connections of pool `p` that the operations of `tr` acquired and
did not give back: successful `Pop`s minus `Push`es. -/
def outstanding (p : Pool) (tr : List Event) : Int :=
  (tr.count (Event.Pop p true) : Int) - (tr.count (Event.Push p) : Int)

/-! ## The cache tier: ordered sets -/

/-- The decimal text `std::to_string` produces for an integer. -/
def to_string (i : Int) : List Char :=
  if i < 0 then '-' :: Nat.toDigits 10 (-i).toNat else Nat.toDigits 10 i.toNat

/-- Modelled from the spec: one element of a cached ordered set, the review id
(`member`) with the caller-supplied timestamp as its ordering `score`. The
handlers store the decimal text of both; the cache parses the score into a
floating-point number, which is exact for the integers below `2^53`, and
`std::stoul` reads the member back, so the model keeps the two integers. -/
structure ZEntry where
  score : Int
  member : Int
  deriving DecidableEq, Repr

/-- Modelled from the spec: the order of a reverse range of the cache
dependency (`RedisClient.h` and the cache server are not under `src/`): the
higher score comes first and, among equal scores, the member whose text is
lexicographically greater. -/
def ZEntry.before (a b : ZEntry) : Bool :=
  decide (b.score < a.score) ||
    (decide (a.score = b.score) && decide (to_string b.member < to_string a.member))

/-- Modelled from the spec: insertion of an element at its rank in an ordered
set kept in reverse-range order. -/
def zinsert (e : ZEntry) : List ZEntry → List ZEntry
  | [] => [e]
  | x :: rest => if e.before x then e :: x :: rest else x :: zinsert e rest

/-- Modelled from the spec: the cache's add-with-score of one pair: a member
already present is moved to its new score, a new one is inserted. -/
def zadd1 (zs : List ZEntry) (score member : Int) : List ZEntry :=
  zinsert ⟨score, member⟩ (zs.filter (fun x => decide (x.member ≠ member)))

/-- Modelled from the spec: add-with-score of several `(score, member)` pairs,
applied in the order they are sent. -/
def zadd (zs : List ZEntry) (score_members : List (Int × Int)) : List ZEntry :=
  score_members.foldl (fun acc p => zadd1 acc p.1 p.2) zs

/-- Modelled from the spec: the cache's ranged reverse-range query
`ZREVRANGE key start stop` with inclusive bounds: a negative index counts from
the end, the range is clipped to the set, and the members come highest score
first. -/
def zrevrange (zs : List ZEntry) (start stop : Int) : List Int :=
  let len : Int := zs.length
  let s := if start < 0 then max (len + start) 0 else start
  let e := if stop < 0 then len + stop else stop
  if s > e ∨ s ≥ len then []
  else ((zs.drop s.toNat).take (min e (len - 1) - s + 1).toNat).map ZEntry.member

/-- Insertion into a `std::multimap<std::string, std::string>` whose keys are
the decimal texts of timestamps: the pair goes after every pair whose key is not
greater, so pairs are ordered by key text and equal keys keep insertion
order. The pair is kept as `(timestamp, review_id)`. -/
def multimap_insert (p : Int × Int) : List (Int × Int) → List (Int × Int)
  | [] => [p]
  | q :: rest =>
    if to_string p.1 < to_string q.1 then p :: q :: rest else q :: multimap_insert p rest

/-! ## The durable tier: one document per user -/

/-- An element of the `reviews` array of a user's document: a sub-document
holding an int64 `review_id` and an int64 `timestamp`, or anything else. -/
inductive ReviewsElem
  | review (review_id timestamp : Int)
  | other
  deriving DecidableEq, Repr

/-- The two tiers behind `UserReviewHandler`: the cached ordered set of each
user (key `std::to_string(user_id)`), and the `reviews` array of the document of
each user in collection `user-review`, `none` when the user has no document. -/
structure UserReviewState where
  redis : Int → List ZEntry
  mongodb : Int → Option (List ReviewsElem)

/-- The state in which the cached ordered set of `key` is `zs` and everything
else is as in `st`. -/
def UserReviewState.set_redis (st : UserReviewState) (key : Int) (zs : List ZEntry) :
    UserReviewState :=
  { st with redis := fun k => if k = key then zs else st.redis k }

/-- Modelled from the spec: a review body as the review-content service returns
it (the generated `Review` record is not under `src/`). -/
structure Review where
  review_id : Int
  text : String
  deriving DecidableEq, Repr

/-- The part of a `UserReviewHandler` that its calls read: the delay parsed at
construction. -/
structure UserReviewHandler where
  extra_latency_ms : Int

/-! ## `UserReviewHandler::UploadUserReview` -/

/-- Outcomes of the dependencies during one `UploadUserReview` call:
`mongodb_client` / `collection` / `redis_client_wrapper` tell whether the
acquisition yields a non-null handle, `insert_error` / `update_error` hold
`error.message` when `mongoc_collection_insert_one` /
`mongoc_collection_find_and_modify` return false, `sync_commit` holds the
exception `sync_commit()` throws. -/
structure UploadUserReviewEnv where
  mongodb_client : Bool
  collection : Bool
  insert_error : Option String
  update_error : Option String
  redis_client_wrapper : Bool
  sync_commit : Option Exn

/-- The durable-store step of `UploadUserReview` once the collection is at hand
(source lines 127-199): `insert_one` of a new document holding the single entry
when the user has none, else `find_and_modify` with
`$push` / `$each` / `$position: 0`. Gives the store afterwards, or the error
message, and the operation issued. -/
def UploadUserReview_mongodb (env : UploadUserReviewEnv)
    (mongodb : Int → Option (List ReviewsElem)) (user_id review_id timestamp : Int) :
    Except String (Int → Option (List ReviewsElem)) × Event :=
  match mongodb user_id with
  | none =>
    match env.insert_error with
    | some message =>
      (.error message, .mongoc_collection_insert_one user_id review_id timestamp false)
    | none =>
      (.ok (fun u => if u = user_id then some [.review review_id timestamp] else mongodb u),
        .mongoc_collection_insert_one user_id review_id timestamp true)
  | some reviews =>
    match env.update_error with
    | some message =>
      (.error message, .mongoc_collection_find_and_modify user_id review_id timestamp false)
    | none =>
      (.ok (fun u =>
          if u = user_id then some (.review review_id timestamp :: reviews) else mongodb u),
        .mongoc_collection_find_and_modify user_id review_id timestamp true)

/-- The embedding of `UserReviewHandler::UploadUserReview`
(`UserReviewHandler.h`, lines 87-224). -/
def UploadUserReview (h : UserReviewHandler) (env : UploadUserReviewEnv)
    (st : UserReviewState) (req_id user_id review_id timestamp : Int) :
    Outcome UserReviewState Unit :=
  let t0 : List Event :=
    if h.extra_latency_ms > 0 then [.sleep_for h.extra_latency_ms] else []
  if !env.mongodb_client then
    ⟨.error (.ServiceException .SE_MONGODB_ERROR "Failed to pop a client from MongoDB pool"),
      t0 ++ [.Pop .mongodb_client_pool false], st⟩
  else if !env.collection then
    ⟨.error (.ServiceException .SE_MONGODB_ERROR
        "Failed to create collection user-review from DB user-review"),
      t0 ++ [.Pop .mongodb_client_pool true, .mongoc_client_get_collection false,
        .Push .mongodb_client_pool], st⟩
  else
    let t1 := t0 ++ [.Pop .mongodb_client_pool true, .mongoc_client_get_collection true,
      .mongoc_collection_find_with_opts user_id none]
    let step := UploadUserReview_mongodb env st.mongodb user_id review_id timestamp
    match step.1 with
    | .error message =>
      ⟨.error (.ServiceException .SE_MONGODB_ERROR message),
        t1 ++ [step.2, .Push .mongodb_client_pool], st⟩
    | .ok mongodb1 =>
      let st1 : UserReviewState := { st with mongodb := mongodb1 }
      let t2 := t1 ++ [step.2, .Push .mongodb_client_pool]
      if !env.redis_client_wrapper then
        ⟨.error (.ServiceException .SE_REDIS_ERROR "Cannot connected to Redis server"),
          t2 ++ [.Pop .memcached_client_pool false], st1⟩
      else
        match env.sync_commit with
        | some e =>
          ⟨.error e, t2 ++ [.Pop .memcached_client_pool true,
            .zadd user_id [(timestamp, review_id)], .commit false], st1⟩
        | none =>
          ⟨.ok (), t2 ++ [.Pop .memcached_client_pool true,
            .zadd user_id [(timestamp, review_id)], .commit true,
            .Push .memcached_client_pool],
            st1.set_redis user_id (zadd (st1.redis user_id) [(timestamp, review_id)])⟩

/-! ## `UserReviewHandler::ReadUserReviews` -/

/-- Outcomes of the dependencies during one `ReadUserReviews` call.
`redis_client_wrapper` / `mongodb_client` / `collection` /
`review_client_wrapper` / `redis_client_wrapper_update` tell whether the
acquisition yields a non-null handle (the last one is the second acquisition of
the cache pool, for the rebuild); `commit` / `update_commit` hold the exception
the first / second `commit()` throws; `review_ids_future` /
`zadd_reply_future` hold the exception `get()` throws on that future;
`ReadReviews` is the answer of the review-content service. -/
structure ReadUserReviewsEnv where
  redis_client_wrapper : Bool
  commit : Option Exn
  review_ids_future : Option Exn
  mongodb_client : Bool
  collection : Bool
  review_client_wrapper : Bool
  ReadReviews : Int → List Int → Except Exn (List Review)
  redis_client_wrapper_update : Bool
  update_commit : Option Exn
  zadd_reply_future : Option Exn

/-- The `while (bson_iter_next(&array_iter))` loop of `ReadUserReviews` (source
lines 317-341) over the elements of the sliced `reviews` array, from index
`idx`, on the pair `(review_ids, redis_update_map)`. -/
def ReadUserReviews_loop (start : Int) :
    Int → List ReviewsElem → List Int × List (Int × Int) → List Int × List (Int × Int)
  | _, [], acc => acc
  | idx, .review curr_review_id curr_timestamp :: rest, acc =>
    ReadUserReviews_loop start (idx + 1) rest
      (if idx ≥ start then acc.1 ++ [curr_review_id] else acc.1,
        multimap_insert (curr_timestamp, curr_review_id) acc.2)
  | idx, .other :: rest, acc => ReadUserReviews_loop start (idx + 1) rest acc

/-- The durable-store fallback of `ReadUserReviews` (source lines 278-351):
the query of the user's document with projection `$slice: [0, stop]` and the
loop over what it returns. Gives `(review_ids, redis_update_map)` or the
exception, and the operations issued. -/
def ReadUserReviews_mongodb (env : ReadUserReviewsEnv)
    (mongodb : Int → Option (List ReviewsElem)) (user_id start stop : Int)
    (review_ids : List Int) :
    Except Exn (List Int × List (Int × Int)) × List Event :=
  if !env.mongodb_client then
    (.error (.ServiceException .SE_MONGODB_ERROR "Failed to pop a client from MongoDB pool"),
      [.Pop .mongodb_client_pool false])
  else if !env.collection then
    (.error (.ServiceException .SE_MONGODB_ERROR
        "Failed to create collection user-review from MongoDB"),
      [.Pop .mongodb_client_pool true, .mongoc_client_get_collection false,
        .Push .mongodb_client_pool])
  else
    (.ok (match mongodb user_id with
        | some reviews =>
          ReadUserReviews_loop start 0 (reviews.take stop.toNat) (review_ids, [])
        | none => (review_ids, [])),
      [.Pop .mongodb_client_pool true, .mongoc_client_get_collection true,
        .mongoc_collection_find_with_opts user_id (some stop), .Push .mongodb_client_pool])

/-- The `std::async` task of `ReadUserReviews` that hydrates the reviews (source
lines 354-375): its result and the operations it issues. -/
def ReadUserReviews_review_future (env : ReadUserReviewsEnv) (req_id : Int)
    (review_ids : List Int) : Except Exn (List Review) × List Event :=
  if !env.review_client_wrapper then
    (.error (.ServiceException .SE_THRIFT_CONN_ERROR
        "Failed to connected to review-storage-service"),
      [.Pop .review_client_pool false])
  else
    (env.ReadReviews req_id review_ids,
      [.Pop .review_client_pool true, .ReadReviews req_id review_ids,
        .Push .review_client_pool])

/-- The second half of `ReadUserReviews` (source lines 275-352): with the ids
the cache returned, `mongo_start` is computed and, when it is below `stop`, the
durable-store fallback runs. Gives `(review_ids, redis_update_map)` or the
exception, and the operations issued. -/
def ReadUserReviews_fill (env : ReadUserReviewsEnv) (st : UserReviewState)
    (user_id start stop : Int) (review_ids : List Int) :
    Except Exn (List Int × List (Int × Int)) × List Event :=
  let mongo_start : Int := start + review_ids.length
  if mongo_start < stop then
    ReadUserReviews_mongodb env st.mongodb user_id start stop review_ids
  else (.ok (review_ids, []), [])

/-- The last part of `ReadUserReviews` (source lines 354-423): the review task
is launched, the cache is rebuilt from `redis_update_map` when that map is not
empty (`del` of the user's key, then `zadd` of the whole map), and the two are
joined. -/
def ReadUserReviews_join (env : ReadUserReviewsEnv) (st : UserReviewState)
    (req_id user_id : Int) (review_ids : List Int) (redis_update_map : List (Int × Int)) :
    Outcome UserReviewState (List Review) :=
  let review_future := ReadUserReviews_review_future env req_id review_ids
  if redis_update_map.isEmpty then ⟨review_future.1, review_future.2, st⟩
  else if !env.redis_client_wrapper_update then
    ⟨.error (.ServiceException .SE_REDIS_ERROR "Cannot connected to Redis server"),
      review_future.2 ++ [.Pop .memcached_client_pool false], st⟩
  else
    match env.update_commit with
    | some e =>
      ⟨.error e, review_future.2 ++ [.Pop .memcached_client_pool true, .del user_id,
        .zadd user_id redis_update_map, .commit false], st⟩
    | none =>
      let t := review_future.2 ++ [.Pop .memcached_client_pool true, .del user_id,
        .zadd user_id redis_update_map, .commit true, .Push .memcached_client_pool]
      let st1 := st.set_redis user_id (zadd [] redis_update_map)
      match review_future.1 with
      | .error e => ⟨.error e, t, st1⟩
      | .ok reviews =>
        match env.zadd_reply_future with
        | some e => ⟨.error e, t, st1⟩
        | none => ⟨.ok reviews, t, st1⟩

/-- The embedding of `UserReviewHandler::ReadUserReviews`
(`UserReviewHandler.h`, lines 226-423). The reply of the cache to the range
query is the array of the decimal texts of the members in range. The function
never reads `_extra_latency_ms`, so the embedding takes no handler. -/
def ReadUserReviews (env : ReadUserReviewsEnv) (st : UserReviewState)
    (req_id user_id start stop : Int) : Outcome UserReviewState (List Review) :=
  if stop ≤ start ∨ start < 0 then ⟨.ok [], [], st⟩
  else if !env.redis_client_wrapper then
    ⟨.error (.ServiceException .SE_REDIS_ERROR "Cannot connected to Redis server"),
      [.Pop .memcached_client_pool false], st⟩
  else
    match env.commit with
    | some e =>
      ⟨.error e, [.Pop .memcached_client_pool true, .zrevrange user_id start (stop - 1),
        .commit false], st⟩
    | none =>
      let t1 : List Event := [.Pop .memcached_client_pool true,
        .zrevrange user_id start (stop - 1), .commit true, .Push .memcached_client_pool]
      match env.review_ids_future with
      | some e => ⟨.error e, t1, st⟩
      | none =>
        let fill := ReadUserReviews_fill env st user_id start stop
          (zrevrange (st.redis user_id) start (stop - 1))
        match fill.1 with
        | .error e => ⟨.error e, t1 ++ fill.2, st⟩
        | .ok (review_ids, redis_update_map) =>
          let join := ReadUserReviews_join env st req_id user_id review_ids redis_update_map
          ⟨join.result, t1 ++ fill.2 ++ join.trace, join.state⟩

/-! ## The pooled remote call -/

/-- The pattern every remote call of the handlers follows: `Pop` a client from
its pool and throw `SE_THRIFT_CONN_ERROR` when there is none; otherwise issue the
call and `Push` the client back, both when the call returns and, in the
`catch (...)` that rethrows, when it throws. Gives the result of the call and
the operations issued. -/
def pooled_call {α : Type} (pool : Pool) (client_wrapper : Bool) (message : String)
    (call : Event) (answer : Except Exn α) : Except Exn α × List Event :=
  if !client_wrapper then
    (.error (.ServiceException .SE_THRIFT_CONN_ERROR message), [.Pop pool false])
  else (answer, [.Pop pool true, call, .Push pool])

/-! ## `PageHandler::ReadPage` -/

/-- Modelled from the spec: a cast entry embedded in a movie info, of which
`ReadPage` reads the cast-reference identifier (the generated record is not
under `src/`). -/
structure Cast where
  cast_id : Int
  cast_info_id : Int
  deriving DecidableEq, Repr

/-- Modelled from the spec: the movie info record, of which `ReadPage` reads the
casts and the plot identifier. -/
structure MovieInfo where
  movie_id : String
  casts : List Cast
  plot_id : Int
  deriving DecidableEq, Repr

/-- Modelled from the spec: a cast info as the cast-info service returns it. -/
structure CastInfo where
  cast_info_id : Int
  name : String
  deriving DecidableEq, Repr

/-- Modelled from the spec: the composite of movie info, reviews, cast infos and
plot text that `ReadPage` returns. -/
structure Page where
  movie_info : MovieInfo
  reviews : List Review
  cast_infos : List CastInfo
  plot : String
  deriving DecidableEq, Repr

/-- The part of a `PageHandler` that its calls could read: the delay parsed at
construction. -/
structure PageHandler where
  extra_latency_ms : Int

/-- Outcomes of the dependencies during one `ReadPage` call: whether each pool
yields a client, and what each remote service answers. -/
structure ReadPageEnv where
  movie_info_client_wrapper : Bool
  ReadMovieInfo : Int → String → Except Exn MovieInfo
  movie_review_client_wrapper : Bool
  ReadMovieReviews : Int → String → Int → Int → Except Exn (List Review)
  cast_info_client_wrapper : Bool
  ReadCastInfo : Int → List Int → Except Exn (List CastInfo)
  plot_client_wrapper : Bool
  ReadPlot : Int → Int → Except Exn String

/-- The task launched as `movie_info_future` (`PageHandler.h`, lines 127-147). -/
def movie_info_future (env : ReadPageEnv) (req_id : Int) (movie_id : String) :
    Except Exn MovieInfo × List Event :=
  pooled_call .movie_info_client_pool env.movie_info_client_wrapper
    "Failed to connected to movie-info-service"
    (.ReadMovieInfo req_id movie_id) (env.ReadMovieInfo req_id movie_id)

/-- The task launched as `movie_review_future` (`PageHandler.h`, lines 149-169).
It acquires from `_movie_review_client_pool`, a pool the class does not declare
among its members in this revision; it is modelled as a pool of its own. -/
def movie_review_future (env : ReadPageEnv) (req_id : Int) (movie_id : String)
    (review_start review_stop : Int) : Except Exn (List Review) × List Event :=
  pooled_call .movie_review_client_pool env.movie_review_client_wrapper
    "Failed to connected to movie-review-service"
    (.ReadMovieReviews req_id movie_id review_start review_stop)
    (env.ReadMovieReviews req_id movie_id review_start review_stop)

/-- The list `cast_info_ids` that `ReadPage` collects from the casts of the
movie info (`PageHandler.h`, lines 177-180). -/
def cast_info_ids (movie_info : MovieInfo) : List Int :=
  movie_info.casts.map Cast.cast_info_id

/-- The task launched as `cast_info_future` (`PageHandler.h`, lines 182-202). -/
def cast_info_future (env : ReadPageEnv) (req_id : Int) (movie_info : MovieInfo) :
    Except Exn (List CastInfo) × List Event :=
  pooled_call .cast_info_client_pool env.cast_info_client_wrapper
    "Failed to connected to cast-info-service"
    (.ReadCastInfo req_id (cast_info_ids movie_info))
    (env.ReadCastInfo req_id (cast_info_ids movie_info))

/-- The task launched as `plot_future` (`PageHandler.h`, lines 204-224). -/
def plot_future (env : ReadPageEnv) (req_id : Int) (movie_info : MovieInfo) :
    Except Exn String × List Event :=
  pooled_call .plot_client_pool env.plot_client_wrapper
    "Failed to connected to plot-service"
    (.ReadPlot req_id movie_info.plot_id) (env.ReadPlot req_id movie_info.plot_id)

/-- The embedding of `PageHandler::ReadPage` (`PageHandler.h`, lines 104-234).
The movie-info and review tasks are launched first; the cast-info and plot tasks
are launched only once `movie_info_future.get()` has returned; the joins follow
in the order reviews, plot, cast infos. A task that was launched runs to
completion whatever the joins do, so its operations are in the trace. The
function never reads `extra_latency_ms`. -/
def ReadPage (h : PageHandler) (env : ReadPageEnv) (req_id : Int) (movie_id : String)
    (review_start review_stop : Int) : Outcome Unit Page :=
  let launched := (movie_info_future env req_id movie_id).2 ++
    (movie_review_future env req_id movie_id review_start review_stop).2
  match (movie_info_future env req_id movie_id).1 with
  | .error e => ⟨.error e, launched, ()⟩
  | .ok movie_info =>
    let t := launched ++ (cast_info_future env req_id movie_info).2 ++
      (plot_future env req_id movie_info).2
    match (movie_review_future env req_id movie_id review_start review_stop).1 with
    | .error e => ⟨.error e, t, ()⟩
    | .ok reviews =>
      match (plot_future env req_id movie_info).1 with
      | .error e => ⟨.error e, t, ()⟩
      | .ok plot =>
        match (cast_info_future env req_id movie_info).1 with
        | .error e => ⟨.error e, t, ()⟩
        | .ok cast_infos => ⟨.ok ⟨movie_info, reviews, cast_infos, plot⟩, t, ()⟩

/-! ## `RatingHandler::UploadRating` and `TextHandler::UploadText` -/

/-- The part of a `RatingHandler` that its calls read. -/
structure RatingHandler where
  extra_latency_ms : Int

/-- Outcomes of the dependencies during one `UploadRating` call. -/
structure UploadRatingEnv where
  compose_client_wrapper : Bool
  UploadRating : Int → Int → Except Exn Unit
  redis_client_wrapper : Bool
  sync_commit : Option Exn

/-- The `std::async` task of `UploadRating` that updates the accumulator
(`RatingHandler.h`, lines 118-134) on the integer counters of the rating cache:
its result, the operations issued and the counters afterwards. -/
def UploadRating_redis_future (env : UploadRatingEnv) (redis : String → Int)
    (movie_id : String) (rating : Int) :
    Except Exn Unit × List Event × (String → Int) :=
  if !env.redis_client_wrapper then
    (.error (.ServiceException .SE_REDIS_ERROR "Cannot connected to Redis server"),
      [.Pop .redis_client_pool false], redis)
  else
    match env.sync_commit with
    | some e =>
      (.error e, [.Pop .redis_client_pool true, .incrby (movie_id ++ ":uncommit_sum") rating,
        .incr (movie_id ++ ":uncommit_num"), .commit false], redis)
    | none =>
      let redis1 : String → Int := fun k =>
        if k = movie_id ++ ":uncommit_sum" then redis k + rating else redis k
      (.ok (), [.Pop .redis_client_pool true, .incrby (movie_id ++ ":uncommit_sum") rating,
        .incr (movie_id ++ ":uncommit_num"), .commit true, .Push .redis_client_pool],
        fun k => if k = movie_id ++ ":uncommit_num" then redis1 k + 1 else redis1 k)

/-- The embedding of `RatingHandler::UploadRating` (`RatingHandler.h`,
lines 73-150). -/
def UploadRating (h : RatingHandler) (env : UploadRatingEnv) (redis : String → Int)
    (req_id : Int) (movie_id : String) (rating : Int) : Outcome (String → Int) Unit :=
  let t0 : List Event :=
    if h.extra_latency_ms > 0 then [.sleep_for h.extra_latency_ms] else []
  let upload_future := pooled_call .compose_client_pool env.compose_client_wrapper
    "Failed to connected to compose-review-service" (.UploadRating req_id rating)
    (env.UploadRating req_id rating)
  let redis_future := UploadRating_redis_future env redis movie_id rating
  let t := t0 ++ upload_future.2 ++ redis_future.2.1
  match upload_future.1 with
  | .error e => ⟨.error e, t, redis_future.2.2⟩
  | .ok _ =>
    match redis_future.1 with
    | .error e => ⟨.error e, t, redis_future.2.2⟩
    | .ok _ => ⟨.ok (), t, redis_future.2.2⟩

/-- The part of a `TextHandler` that its calls read. -/
structure TextHandler where
  extra_latency_ms : Int

/-- Outcomes of the dependencies during one `UploadText` call. -/
structure UploadTextEnv where
  compose_client_wrapper : Bool
  UploadText : Int → String → Except Exn Unit

/-- The embedding of `TextHandler::UploadText` (`TextHandler.h`, lines 66-106). -/
def UploadText (h : TextHandler) (env : UploadTextEnv) (req_id : Int) (text : String) :
    Outcome Unit Unit :=
  let t0 : List Event :=
    if h.extra_latency_ms > 0 then [.sleep_for h.extra_latency_ms] else []
  let upload := pooled_call .compose_client_pool env.compose_client_wrapper
    "Failed to connected to compose-review-service" (.UploadText req_id text)
    (env.UploadText req_id text)
  ⟨upload.1, t0 ++ upload.2, ()⟩

/-! ## Notions used to state the properties -/

/-- The pair `(review_ids, redis_update_map)` that `ReadUserReviews` holds at
source line 353, once the cache has answered and the durable-store fallback, if
any, has run without failure. The id list is what the review-content service is
asked for. -/
def ReadUserReviews_review_ids (st : UserReviewState) (user_id start stop : Int) :
    List Int × List (Int × Int) :=
  let review_ids := zrevrange (st.redis user_id) start (stop - 1)
  if start + (review_ids.length : Int) < stop then
    match st.mongodb user_id with
    | some reviews => ReadUserReviews_loop start 0 (reviews.take stop.toNat) (review_ids, [])
    | none => (review_ids, [])
  else (review_ids, [])

/-- A cached ordered set is in reverse-range order: scores never increase along
the list. -/
def zsorted (zs : List ZEntry) : Prop := zs.Pairwise (fun a b => b.score ≤ a.score)

/-- The `(timestamp, review_id)` pairs of the well-formed elements of a
`reviews` array, in array order. -/
def review_pairs : List ReviewsElem → List (Int × Int)
  | [] => []
  | .review review_id timestamp :: rest => (timestamp, review_id) :: review_pairs rest
  | .other :: rest => review_pairs rest

/-- Decidability of `zsorted`, by that of `List.Pairwise`. -/
instance zsorted_decidable (zs : List ZEntry) : Decidable (zsorted zs) :=
  inferInstanceAs (Decidable (zs.Pairwise (fun (a b : ZEntry) => b.score ≤ a.score)))

/-- Is the event part of the cast-info or of the plot task of `ReadPage` (the
acquisition or release of its pool, or its remote call)? -/
def Event.isCastInfoOrPlot : Event → Bool
  | .Pop .cast_info_client_pool _ => true
  | .Push .cast_info_client_pool => true
  | .ReadCastInfo _ _ => true
  | .Pop .plot_client_pool _ => true
  | .Push .plot_client_pool => true
  | .ReadPlot _ _ => true
  | _ => false

/-! ## Scenarios -/

/-- The dependencies of an `UploadUserReview` call that all succeed. -/
def UploadUserReviewEnv.succeed : UploadUserReviewEnv :=
  ⟨true, true, none, none, true, none⟩

/-- A review-content service that answers with one review per requested id, in
the order requested. -/
def review_storage (req_id : Int) (review_ids : List Int) : Except Exn (List Review) :=
  .ok (review_ids.map fun i => ⟨i, ""⟩)

/-- The dependencies of a `ReadUserReviews` call that all succeed, with
`review_storage` as the review-content service. -/
def ReadUserReviewsEnv.succeed : ReadUserReviewsEnv :=
  ⟨true, none, none, true, true, true, review_storage, true, none, none⟩

/-- The dependencies of an `UploadUserReview` call whose cache pool yields no
connection: the durable-store step succeeds, the cache step fails. -/
def UploadUserReviewEnv.cache_down : UploadUserReviewEnv :=
  ⟨true, true, none, none, false, none⟩

/-- The dependencies of an `UploadUserReview` call whose `sync_commit()` throws
(the connection to the cache is lost). -/
def UploadUserReviewEnv.commit_throws : UploadUserReviewEnv :=
  ⟨true, true, none, none, true, some (.other "cpp_redis::redis_error")⟩

/-- The dependencies of a `ReadUserReviews` call whose first `commit()`
throws. -/
def ReadUserReviewsEnv.commit_throws : ReadUserReviewsEnv :=
  ⟨true, some (.other "cpp_redis::redis_error"), none, true, true, true, review_storage,
    true, none, none⟩

/-- The dependencies of an `UploadRating` call whose `sync_commit()` throws. -/
def UploadRatingEnv.commit_throws : UploadRatingEnv :=
  ⟨true, fun _ _ => .ok (), true, some (.other "cpp_redis::redis_error")⟩

/-- The dependencies of a `ReadPage` call that all succeed: every movie has the
casts with cast-info ids 11 and 12 and the plot id 5. -/
def ReadPageEnv.succeed : ReadPageEnv :=
  ⟨true, fun _ movie_id => .ok ⟨movie_id, [⟨1, 11⟩, ⟨2, 12⟩], 5⟩,
    true, fun _ _ _ _ => .ok [⟨100, "review"⟩],
    true, fun _ ids => .ok (ids.map fun i => ⟨i, "cast"⟩),
    true, fun _ _ => .ok "plot"⟩

/-- Both tiers empty: no cached set, no document. -/
def UserReviewState.empty : UserReviewState := ⟨fun _ => [], fun _ => none⟩

/-- The state after the `UploadUserReview` calls for `user_id` with the given
`(review_id, timestamp)` pairs, in that order, each under `env`. -/
def after_uploads (h : UserReviewHandler) (env : UploadUserReviewEnv) (user_id : Int) :
    UserReviewState → List (Int × Int) → UserReviewState
  | st, [] => st
  | st, (review_id, timestamp) :: rest =>
    after_uploads h env user_id
      (UploadUserReview h env st 0 user_id review_id timestamp).state rest

/-! ## Sequences of `UploadRating` calls -/

/-- One `UploadRating` call of a sequence: the outcomes of its dependencies and
its arguments. -/
structure UploadRatingCall where
  env : UploadRatingEnv
  req_id : Int
  movie_id : String
  rating : Int

/-- The counters of the rating cache after the given `UploadRating` calls, made
one after the other. -/
def UploadRating_calls (h : RatingHandler) :
    (String → Int) → List UploadRatingCall → (String → Int)
  | redis, [] => redis
  | redis, c :: rest =>
    UploadRating_calls h (UploadRating h c.env redis c.req_id c.movie_id c.rating).state rest

/-- Every call of the sequence returns without exception. -/
def UploadRating_calls_succeed (h : RatingHandler) :
    (String → Int) → List UploadRatingCall → Prop
  | _, [] => True
  | redis, c :: rest =>
    (UploadRating h c.env redis c.req_id c.movie_id c.rating).result = .ok () ∧
      UploadRating_calls_succeed h
        (UploadRating h c.env redis c.req_id c.movie_id c.rating).state rest

/-- The ratings uploaded for `movie_id` in a sequence of calls, in call order. -/
def ratings_of (movie_id : String) (calls : List UploadRatingCall) : List Int :=
  (calls.filter (fun c => decide (c.movie_id = movie_id))).map UploadRatingCall.rating

/-- The dependencies of an `UploadRating` call that all succeed. -/
def UploadRatingEnv.succeed : UploadRatingEnv := ⟨true, fun _ _ => .ok (), true, none⟩

/-! ## The latency setting: `ParseExtraLatency` -/

/-- The C `isspace` in the default locale: the space and the control characters
9 to 13. `std::stoi` skips these at the start of its argument. -/
def isspace (c : Char) : Bool :=
  c.toNat == 32 || (decide (9 ≤ c.toNat) && decide (c.toNat ≤ 13))

/-- A decimal digit. -/
def isdigit (c : Char) : Bool := decide (48 ≤ c.toNat) && decide (c.toNat ≤ 57)

/-- The two exceptions `std::stoi` throws. -/
inductive stoi_exception
  | invalid_argument
  | out_of_range
  deriving DecidableEq, Repr

/-- Does the text, leading blanks removed, start with a minus sign? -/
def stoi_negative : List Char → Bool
  | '-' :: _ => true
  | _ => false

/-- The text after its optional sign. -/
def stoi_skip_sign : List Char → List Char
  | '-' :: rest => rest
  | '+' :: rest => rest
  | s => s

/-- The library function `std::stoi(str)` (base 10, no position argument) on a
text given as its list of characters: leading blanks are skipped, an optional
sign is read, then the longest run of decimal digits; whatever follows is
ignored. It throws `invalid_argument` when there is no digit to read and
`out_of_range` when the number does not fit an `int`. -/
def stoi (str : List Char) : Except stoi_exception Int :=
  let s := str.dropWhile isspace
  let negative := stoi_negative s
  let digits := (stoi_skip_sign s).takeWhile isdigit
  if digits.isEmpty then .error .invalid_argument
  else
    let value : Nat := digits.foldl (fun acc c => 10 * acc + (c.toNat - 48)) 0
    let result : Int := if negative then -(value : Int) else (value : Int)
    if result < -2147483648 ∨ 2147483647 < result then .error .out_of_range
    else .ok result

/-- The removal of the suffix "ms" that every copy of `ParseExtraLatency`
starts with (`utils.h`, lines 39-43): when the text has at least two characters
and its last two are "ms", they are cut off. -/
def remove_ms (latency_str : List Char) : List Char :=
  if latency_str.length ≥ 2 ∧ latency_str.drop (latency_str.length - 2) = ['m', 's'] then
    latency_str.take (latency_str.length - 2)
  else latency_str

/-- The embedding of `ParseExtraLatency` (`utils.h`, lines 31-58).
`extra_latency_env` is what `std::getenv("EXTRA_LATENCY")` returns: `none` for
the null pointer, else the text of the setting. -/
def ParseExtraLatency (extra_latency_env : Option (List Char)) : Int :=
  match extra_latency_env with
  | none => 0
  | some latency_str =>
    match stoi (remove_ms latency_str) with
    | .ok latency_ms => if latency_ms < 0 then 0 else latency_ms
    | .error _ => 0

/-- The embedding of `PageHandler::_ParseExtraLatency` (`PageHandler.h`,
lines 75-102). -/
def PageHandler._ParseExtraLatency (extra_latency_env : Option (List Char)) : Int :=
  match extra_latency_env with
  | none => 0
  | some latency_str =>
    match stoi (remove_ms latency_str) with
    | .ok latency_ms => if latency_ms < 0 then 0 else latency_ms
    | .error _ => 0

/-- The embedding of `RatingHandler::_ParseExtraLatency` (`RatingHandler.h`,
lines 44-71). -/
def RatingHandler._ParseExtraLatency (extra_latency_env : Option (List Char)) : Int :=
  match extra_latency_env with
  | none => 0
  | some latency_str =>
    match stoi (remove_ms latency_str) with
    | .ok latency_ms => if latency_ms < 0 then 0 else latency_ms
    | .error _ => 0

/-- The embedding of `TextHandler::_ParseExtraLatency` (`TextHandler.h`,
lines 37-64). -/
def TextHandler._ParseExtraLatency (extra_latency_env : Option (List Char)) : Int :=
  match extra_latency_env with
  | none => 0
  | some latency_str =>
    match stoi (remove_ms latency_str) with
    | .ok latency_ms => if latency_ms < 0 then 0 else latency_ms
    | .error _ => 0

/-- The embedding of `UserReviewHandler::_ParseExtraLatency`
(`UserReviewHandler.h`, lines 58-85). -/
def UserReviewHandler._ParseExtraLatency (extra_latency_env : Option (List Char)) : Int :=
  match extra_latency_env with
  | none => 0
  | some latency_str =>
    match stoi (remove_ms latency_str) with
    | .ok latency_ms => if latency_ms < 0 then 0 else latency_ms
    | .error _ => 0

/-- Is the event an application of the injected delay? -/
def Event.isSleep : Event → Bool
  | .sleep_for _ => true
  | _ => false

/-- The id list of `ReadUserReviews` as the specification words it: the `k` ids
the cache returns for the window and, when `k < stop - start`, the review ids of
the entries of the user's durable list at the indices `start + k`, ...,
`stop - 1`, in durable order. -/
def ReadUserReviews_review_ids_spec (st : UserReviewState) (user_id start stop : Int) :
    List Int :=
  let hits := zrevrange (st.redis user_id) start (stop - 1)
  let k : Int := hits.length
  if k < stop - start then
    hits ++ (review_pairs
      ((((st.mongodb user_id).getD []).take stop.toNat).drop (start + k).toNat)).map Prod.snd
  else hits

/-- The dependencies of a `ReadUserReviews` call whose review-content call throws
and whose cache pool yields no connection for the rebuild. -/
def ReadUserReviewsEnv.content_and_rebuild_pool_down : ReadUserReviewsEnv :=
  ⟨true, none, none, true, true, true, fun _ _ => .error (.other "TTransportException"),
    false, none, none⟩

/-- The dependencies of a `ReadUserReviews` call whose review-content call throws
and whose rebuild is issued and gets a failing reply. -/
def ReadUserReviewsEnv.content_and_reply_fail : ReadUserReviewsEnv :=
  ⟨true, none, none, true, true, true, fun _ _ => .error (.other "TTransportException"),
    true, none, some (.other "cpp_redis::redis_error")⟩

/-! ## Lemmas on the ordered sets of the cache -/

/-- For `0 <= start < stop`, the range query `zrevrange zs start (stop - 1)` gives
the members of the window `[start, stop)` of the set. -/
theorem zrevrange_eq (zs : List ZEntry) (start stop : Int) (h0 : 0 ≤ start)
    (h1 : start < stop) :
    zrevrange zs start (stop - 1) =
      ((zs.drop start.toNat).take (stop - start).toNat).map ZEntry.member := by
  unfold zrevrange
  have hs : ¬ start < 0 := by omega
  have he : ¬ stop - 1 < 0 := by omega
  simp only [hs, he, if_false]
  by_cases hlen : start ≥ (zs.length : Int)
  · have : zs.length ≤ start.toNat := by omega
    simp [hlen, List.drop_eq_nil_of_le this]
  · have h2 : ¬ (start > stop - 1 ∨ start ≥ (zs.length : Int)) := by omega
    rw [if_neg h2]
    by_cases hst : stop ≤ (zs.length : Int)
    · have : (min (stop - 1) ((zs.length : Int) - 1) - start + 1).toNat = (stop - start).toNat := by
        omega
      rw [this]
    · have hl : (zs.drop start.toNat).length ≤ (min (stop - 1) ((zs.length : Int) - 1) - start + 1).toNat := by
        rw [List.length_drop]; omega
      have hr : (zs.drop start.toNat).length ≤ (stop - start).toNat := by
        rw [List.length_drop]; omega
      rw [List.take_of_length_le hl, List.take_of_length_le hr]

/-- The number of ids the cache returns for the window `[start, stop)`. -/
theorem zrevrange_length (zs : List ZEntry) (start stop : Int) (h0 : 0 ≤ start)
    (h1 : start < stop) :
    ((zrevrange zs start (stop - 1)).length : Int) =
      min (stop - start) (max ((zs.length : Int) - start) 0) := by
  rw [zrevrange_eq zs start stop h0 h1]
  simp only [List.length_map, List.length_take, List.length_drop]
  omega

theorem mem_zinsert (e x : ZEntry) (l : List ZEntry) :
    x ∈ zinsert e l ↔ x = e ∨ x ∈ l := by
  induction l with
  | nil => simp [zinsert]
  | cons y rest ih =>
    unfold zinsert
    split
    · simp
    · simp [ih]; tauto

theorem length_zinsert (e : ZEntry) (l : List ZEntry) :
    (zinsert e l).length = l.length + 1 := by
  induction l with
  | nil => simp [zinsert]
  | cons y rest ih =>
    unfold zinsert
    split <;> simp [ih]

theorem ZEntry.score_le_of_before (a b : ZEntry) (h : a.before b = true) :
    b.score ≤ a.score := by
  unfold ZEntry.before at h
  simp at h
  omega

theorem ZEntry.score_le_of_not_before (a b : ZEntry) (h : ¬ a.before b = true) :
    a.score ≤ b.score := by
  unfold ZEntry.before at h
  simp at h
  omega

/-- Insertion at rank keeps a set in reverse-range order. -/
theorem zsorted_zinsert (e : ZEntry) (l : List ZEntry) (h : zsorted l) :
    zsorted (zinsert e l) := by
  unfold zsorted at *
  induction l with
  | nil => simp [zinsert]
  | cons y rest ih =>
    rw [List.pairwise_cons] at h
    unfold zinsert
    split
    · rename_i hb
      have := ZEntry.score_le_of_before e y hb
      refine List.Pairwise.cons ?_ (List.Pairwise.cons h.1 h.2)
      intro z hz
      rcases List.mem_cons.1 hz with rfl | hz
      · exact this
      · exact le_trans (h.1 z hz) this
    · rename_i hb
      have := ZEntry.score_le_of_not_before e y hb
      refine List.Pairwise.cons ?_ (ih h.2)
      intro z hz
      rcases (mem_zinsert e z rest).1 hz with rfl | hz
      · exact this
      · exact h.1 z hz

theorem zsorted_zadd1 (zs : List ZEntry) (score member : Int) (h : zsorted zs) :
    zsorted (zadd1 zs score member) := by
  unfold zadd1
  exact zsorted_zinsert _ _ (List.Pairwise.sublist (List.filter_sublist _) h)

/-- Add-with-score keeps a set in reverse-range order. -/
theorem zsorted_zadd (score_members : List (Int × Int)) (zs : List ZEntry) (h : zsorted zs) :
    zsorted (zadd zs score_members) := by
  unfold zadd
  induction score_members generalizing zs with
  | nil => simpa using h
  | cons p rest ih => exact ih _ (zsorted_zadd1 zs p.1 p.2 h)

/-- An element whose score exceeds every score of the set ranks first. -/
theorem zinsert_head (e : ZEntry) (l : List ZEntry) (h : ∀ x ∈ l, x.score < e.score) :
    zinsert e l = e :: l := by
  cases l with
  | nil => rfl
  | cons y rest =>
    have hy := h y (List.mem_cons_self _ _)
    simp [zinsert, ZEntry.before, hy]

theorem mem_zadd1 (zs : List ZEntry) (score member : Int) (x : Int) :
    x ∈ (zadd1 zs score member).map ZEntry.member ↔ x = member ∨ x ∈ zs.map ZEntry.member := by
  unfold zadd1
  simp only [List.mem_map, mem_zinsert, List.mem_filter]
  constructor
  · rintro ⟨a, ha | ha, rfl⟩
    · left; rw [ha]
    · right; exact ⟨a, ha.1, rfl⟩
  · rintro (rfl | ⟨a, ha, rfl⟩)
    · exact ⟨⟨score, x⟩, Or.inl rfl, rfl⟩
    · by_cases h : a.member = member
      · exact ⟨⟨score, member⟩, Or.inl rfl, h.symm⟩
      · exact ⟨a, Or.inr ⟨ha, by simpa using h⟩, rfl⟩

theorem length_zadd1 (zs : List ZEntry) (score member : Int)
    (h : member ∉ zs.map ZEntry.member) :
    (zadd1 zs score member).length = zs.length + 1 := by
  unfold zadd1
  rw [length_zinsert]
  congr 1
  rw [List.filter_eq_self.2]
  intro a ha
  have : a.member ≠ member := fun e => h (e ▸ List.mem_map_of_mem _ ha)
  simpa using this

/-- Adding pairs with pairwise distinct members, none of them in the set, grows
the set by their number. -/
theorem length_zadd (score_members : List (Int × Int)) (zs : List ZEntry)
    (hn : (score_members.map Prod.snd).Nodup)
    (hd : ∀ x ∈ score_members.map Prod.snd, x ∉ zs.map ZEntry.member) :
    (zadd zs score_members).length = zs.length + score_members.length := by
  unfold zadd
  induction score_members generalizing zs with
  | nil => simp
  | cons p rest ih =>
    simp only [List.map_cons, List.nodup_cons] at hn
    simp only [List.foldl_cons, List.length_cons]
    rw [ih _ hn.2, length_zadd1]
    · omega
    · exact hd p.2 (by simp)
    · intro x hx hmem
      rcases (mem_zadd1 zs p.1 p.2 x).1 hmem with rfl | h'
      · exact hn.1 hx
      · exact hd x (by simp [hx]) h'

/-! ## Lemmas on the stages of `ReadUserReviews` -/

theorem review_pairs_sublist {l₁ l₂ : List ReviewsElem} (h : l₁.Sublist l₂) :
    (review_pairs l₁).Sublist (review_pairs l₂) := by
  induction h with
  | slnil => exact List.Sublist.refl _
  | cons a _ ih =>
    cases a with
    | review r t => exact List.Sublist.cons _ ih
    | other => exact ih
  | cons₂ a _ ih =>
    cases a with
    | review r t => exact List.Sublist.cons₂ _ ih
    | other => exact ih

theorem length_review_pairs (l : List ReviewsElem) (h : ∀ x ∈ l, x ≠ .other) :
    (review_pairs l).length = l.length := by
  induction l with
  | nil => rfl
  | cons a rest ih =>
    cases a with
    | review r t =>
      simp only [review_pairs, List.length_cons]
      rw [ih (fun x hx => h x (List.mem_cons_of_mem _ hx))]
    | other => exact absurd rfl (h .other (List.mem_cons_self _ _))

/-- Closed form of the loop over the sliced array: the ids of the well-formed
elements at the indices `>= start` are appended, and the pairs of all the
well-formed elements are inserted into the map. -/
theorem ReadUserReviews_loop_eq (start : Int) (elems : List ReviewsElem) (idx : Int)
    (acc : List Int × List (Int × Int)) :
    ReadUserReviews_loop start idx elems acc =
      (acc.1 ++ (review_pairs (elems.drop (start - idx).toNat)).map Prod.snd,
        (review_pairs elems).foldl (fun m p => multimap_insert p m) acc.2) := by
  induction elems generalizing idx acc with
  | nil => simp [ReadUserReviews_loop, review_pairs]
  | cons x rest ih =>
    cases x with
    | other =>
      rw [ReadUserReviews_loop, ih]
      by_cases h : idx ≥ start
      · have h1 : (start - idx).toNat = 0 := by omega
        have h2 : (start - (idx + 1)).toNat = 0 := by omega
        simp [h1, h2, review_pairs]
      · have h1 : (start - idx).toNat = (start - (idx + 1)).toNat + 1 := by omega
        simp [h1, review_pairs]
    | review r t =>
      rw [ReadUserReviews_loop, ih]
      by_cases h : idx ≥ start
      · have h1 : (start - idx).toNat = 0 := by omega
        have h2 : (start - (idx + 1)).toNat = 0 := by omega
        simp [h, h1, h2, review_pairs]
      · have h1 : (start - idx).toNat = (start - (idx + 1)).toNat + 1 := by omega
        simp [h, h1, review_pairs]

theorem multimap_insert_perm (p : Int × Int) (m : List (Int × Int)) :
    (multimap_insert p m).Perm (p :: m) := by
  induction m with
  | nil => simp [multimap_insert]
  | cons q rest ih =>
    unfold multimap_insert
    split
    · exact List.Perm.refl _
    · exact (List.Perm.cons q ih).trans (List.Perm.swap p q rest)

/-- The map built by successive insertions holds exactly the inserted pairs. -/
theorem multimap_fold_perm (pairs m : List (Int × Int)) :
    (pairs.foldl (fun m p => multimap_insert p m) m).Perm (pairs ++ m) := by
  induction pairs generalizing m with
  | nil => simp
  | cons p rest ih =>
    simp only [List.foldl_cons]
    refine (ih _).trans ?_
    refine (List.Perm.append_left rest (multimap_insert_perm p m)).trans ?_
    simp

theorem ReadUserReviews_mongodb_ok (env : ReadUserReviewsEnv)
    (mongodb : Int → Option (List ReviewsElem)) (user_id start stop : Int)
    (review_ids : List Int) (p : List Int × List (Int × Int))
    (h : (ReadUserReviews_mongodb env mongodb user_id start stop review_ids).1 = .ok p) :
    p = (match mongodb user_id with
        | some reviews =>
          ReadUserReviews_loop start 0 (reviews.take stop.toNat) (review_ids, [])
        | none => (review_ids, [])) := by
  unfold ReadUserReviews_mongodb at h
  split at h
  · simp at h
  · split at h
    · simp at h
    · simpa using h.symm

theorem ReadUserReviews_mongodb_trace (env : ReadUserReviewsEnv)
    (mongodb : Int → Option (List ReviewsElem)) (user_id start stop : Int)
    (review_ids : List Int) (r : Int) (ids : List Int) :
    Event.ReadReviews r ids ∉
      (ReadUserReviews_mongodb env mongodb user_id start stop review_ids).2 := by
  unfold ReadUserReviews_mongodb
  split
  · simp
  · split <;> simp

theorem ReadUserReviews_review_future_trace (env : ReadUserReviewsEnv) (req_id : Int)
    (review_ids : List Int) (r : Int) (ids : List Int)
    (h : Event.ReadReviews r ids ∈ (ReadUserReviews_review_future env req_id review_ids).2) :
    r = req_id ∧ ids = review_ids := by
  unfold ReadUserReviews_review_future at h
  split at h
  · simp at h
  · simpa using h

theorem ReadUserReviews_fill_ok (env : ReadUserReviewsEnv) (st : UserReviewState)
    (user_id start stop : Int) (p : List Int × List (Int × Int))
    (h : (ReadUserReviews_fill env st user_id start stop
      (zrevrange (st.redis user_id) start (stop - 1))).1 = .ok p) :
    p = ReadUserReviews_review_ids st user_id start stop := by
  unfold ReadUserReviews_fill at h
  unfold ReadUserReviews_review_ids
  simp only [] at h ⊢
  split at h
  · rename_i hlt
    rw [if_pos hlt]
    exact ReadUserReviews_mongodb_ok _ _ _ _ _ _ _ h
  · rename_i hlt
    rw [if_neg hlt]
    simpa using h.symm

theorem ReadUserReviews_fill_trace (env : ReadUserReviewsEnv) (st : UserReviewState)
    (user_id start stop : Int) (review_ids : List Int) (r : Int) (ids : List Int) :
    Event.ReadReviews r ids ∉
      (ReadUserReviews_fill env st user_id start stop review_ids).2 := by
  unfold ReadUserReviews_fill
  simp only []
  split
  · exact ReadUserReviews_mongodb_trace _ _ _ _ _ _ _ _
  · simp

theorem ReadUserReviews_fill_no_mongo (env : ReadUserReviewsEnv) (st : UserReviewState)
    (user_id start stop : Int) (review_ids : List Int)
    (h : ¬ start + (review_ids.length : Int) < stop) :
    (ReadUserReviews_fill env st user_id start stop review_ids).2 = [] := by
  unfold ReadUserReviews_fill
  simp only []
  rw [if_neg h]

theorem ReadUserReviews_review_future_ok (env : ReadUserReviewsEnv) (req_id : Int)
    (review_ids : List Int) (reviews : List Review)
    (h : (ReadUserReviews_review_future env req_id review_ids).1 = .ok reviews) :
    env.ReadReviews req_id review_ids = .ok reviews ∧
      Event.ReadReviews req_id review_ids ∈
        (ReadUserReviews_review_future env req_id review_ids).2 := by
  unfold ReadUserReviews_review_future at h ⊢
  split at h
  · simp at h
  · rename_i hw
    simp only [hw, if_false]
    exact ⟨h, by simp⟩

theorem ReadUserReviews_review_future_no_mongo (env : ReadUserReviewsEnv) (req_id : Int)
    (review_ids : List Int) :
    ∀ ev ∈ (ReadUserReviews_review_future env req_id review_ids).2, ev.isMongo = false := by
  unfold ReadUserReviews_review_future
  split <;> simp [Event.isMongo]

theorem ReadUserReviews_join_trace (env : ReadUserReviewsEnv) (st : UserReviewState)
    (req_id user_id : Int) (review_ids : List Int) (redis_update_map : List (Int × Int))
    (r : Int) (ids : List Int)
    (h : Event.ReadReviews r ids ∈
      (ReadUserReviews_join env st req_id user_id review_ids redis_update_map).trace) :
    r = req_id ∧ ids = review_ids := by
  apply ReadUserReviews_review_future_trace env
  unfold ReadUserReviews_join at h
  simp only [] at h
  split at h
  · exact h
  · split at h
    · simpa using h
    · split at h
      · simpa using h
      · split at h
        · simpa using h
        · split at h <;> simpa using h

theorem ReadUserReviews_join_no_mongo (env : ReadUserReviewsEnv) (st : UserReviewState)
    (req_id user_id : Int) (review_ids : List Int) (redis_update_map : List (Int × Int)) :
    ∀ ev ∈ (ReadUserReviews_join env st req_id user_id review_ids redis_update_map).trace,
      ev.isMongo = false := by
  have hf := ReadUserReviews_review_future_no_mongo env req_id review_ids
  intro ev hev
  unfold ReadUserReviews_join at hev
  simp only [] at hev
  have key : ev ∈ (ReadUserReviews_review_future env req_id review_ids).2 ∨
      ev.isMongo = false := by
    split at hev
    · exact Or.inl hev
    · split at hev
      · simp only [List.mem_append, List.mem_cons, List.mem_singleton, List.mem_nil_iff] at hev
        rcases hev with h | h
        · exact Or.inl h
        · right; rcases h with rfl | h
          · rfl
          · exact absurd h (by simp)
      · have aux : ∀ (b : Bool), ev ∈ (ReadUserReviews_review_future env req_id review_ids).2 ++
            ([.Pop .memcached_client_pool true, .del user_id, .zadd user_id redis_update_map,
              .commit b] : List Event) →
            ev ∈ (ReadUserReviews_review_future env req_id review_ids).2 ∨
              ev.isMongo = false := by
          intro b h
          simp only [List.mem_append, List.mem_cons, List.mem_singleton, List.mem_nil_iff] at h
          rcases h with h | h
          · exact Or.inl h
          · right; rcases h with rfl | rfl | rfl | rfl | h
            · rfl
            · rfl
            · rfl
            · rfl
            · exact absurd h (by simp)
        have aux2 : ev ∈ (ReadUserReviews_review_future env req_id review_ids).2 ++
            ([.Pop .memcached_client_pool true, .del user_id, .zadd user_id redis_update_map,
              .commit true, .Push .memcached_client_pool] : List Event) →
            ev ∈ (ReadUserReviews_review_future env req_id review_ids).2 ∨
              ev.isMongo = false := by
          intro h
          simp only [List.mem_append, List.mem_cons, List.mem_singleton, List.mem_nil_iff] at h
          rcases h with h | h
          · exact Or.inl h
          · right; rcases h with rfl | rfl | rfl | rfl | rfl | h
            · rfl
            · rfl
            · rfl
            · rfl
            · rfl
            · exact absurd h (by simp)
        split at hev
        · exact aux false hev
        · split at hev
          · exact aux2 hev
          · split at hev <;> exact aux2 hev
  rcases key with h | h
  · exact hf ev h
  · exact h

theorem ReadUserReviews_join_ok (env : ReadUserReviewsEnv) (st : UserReviewState)
    (req_id user_id : Int) (review_ids : List Int) (redis_update_map : List (Int × Int))
    (reviews : List Review)
    (hok : (ReadUserReviews_join env st req_id user_id review_ids redis_update_map).result =
      .ok reviews) :
    env.ReadReviews req_id review_ids = .ok reviews ∧
      Event.ReadReviews req_id review_ids ∈
        (ReadUserReviews_join env st req_id user_id review_ids redis_update_map).trace ∧
      (ReadUserReviews_join env st req_id user_id review_ids redis_update_map).state =
        (if redis_update_map.isEmpty then st
          else st.set_redis user_id (zadd [] redis_update_map)) := by
  unfold ReadUserReviews_join at hok ⊢
  simp only [] at hok ⊢
  by_cases he : redis_update_map.isEmpty = true
  · simp only [he, if_true] at hok ⊢
    have := ReadUserReviews_review_future_ok env req_id review_ids reviews hok
    exact ⟨this.1, this.2, trivial⟩
  · simp only [he, if_false] at hok ⊢
    cases hw : env.redis_client_wrapper_update
    · simp [hw] at hok
    · simp only [hw, Bool.not_true, if_false] at hok ⊢
      cases hc : env.update_commit with
      | some e => simp [hc] at hok
      | none =>
        simp only [hc] at hok ⊢
        cases hr : (ReadUserReviews_review_future env req_id review_ids).1 with
        | error e => simp [hr] at hok
        | ok rs =>
          simp only [hr] at hok ⊢
          cases hz : env.zadd_reply_future with
          | some e => simp [hz] at hok
          | none =>
            simp only [hz] at hok ⊢
            have hrs : rs = reviews := by simpa using hok
            subst hrs
            have := ReadUserReviews_review_future_ok env req_id review_ids rs hr
            exact ⟨this.1, by simp [this.2], rfl⟩

/-- Every id list the review-content service is asked for during a
`ReadUserReviews` call is `(ReadUserReviews_review_ids ...).1`. -/
theorem ReadUserReviews_handed (env : ReadUserReviewsEnv) (st : UserReviewState)
    (req_id user_id start stop : Int) (r : Int) (ids : List Int)
    (hids : Event.ReadReviews r ids ∈
      (ReadUserReviews env st req_id user_id start stop).trace) :
    ids = (ReadUserReviews_review_ids st user_id start stop).1 := by
  unfold ReadUserReviews at hids
  split at hids
  · simp at hids
  split at hids
  · simp at hids
  split at hids
  · simp at hids
  split at hids
  · simp at hids
  simp only [] at hids
  have hft := ReadUserReviews_fill_trace env st user_id start stop
    (zrevrange (st.redis user_id) start (stop - 1)) r ids
  split at hids
  · simp [hft] at hids
  · rename_i a b hfill
    have hp := ReadUserReviews_fill_ok env st user_id start stop _ hfill
    rw [← hp]
    have key : Event.ReadReviews r ids ∈
        (ReadUserReviews_join env st req_id user_id a b).trace := by
      simpa [hft] using hids
    exact (ReadUserReviews_join_trace _ _ _ _ _ _ _ _ key).2

/-- A successful `ReadUserReviews` on a valid range returns the answer of the
review-content service for the id list it built, has asked for it, and leaves
the cache rebuilt from `redis_update_map` when that map is not empty and
untouched otherwise. -/
theorem ReadUserReviews_result_ok (env : ReadUserReviewsEnv) (st : UserReviewState)
    (req_id user_id start stop : Int) (reviews : List Review)
    (hv : ¬ (stop ≤ start ∨ start < 0))
    (hok : (ReadUserReviews env st req_id user_id start stop).result = .ok reviews) :
    env.ReadReviews req_id (ReadUserReviews_review_ids st user_id start stop).1 = .ok reviews ∧
      Event.ReadReviews req_id (ReadUserReviews_review_ids st user_id start stop).1 ∈
        (ReadUserReviews env st req_id user_id start stop).trace ∧
      (ReadUserReviews env st req_id user_id start stop).state =
        (if (ReadUserReviews_review_ids st user_id start stop).2.isEmpty then st
          else st.set_redis user_id
            (zadd [] (ReadUserReviews_review_ids st user_id start stop).2)) := by
  unfold ReadUserReviews at hok ⊢
  rw [if_neg hv] at hok ⊢
  cases hw : env.redis_client_wrapper
  · simp [hw] at hok
  simp only [hw, Bool.not_true, if_false] at hok ⊢
  cases hc : env.commit with
  | some e => simp [hc] at hok
  | none =>
    simp only [hc] at hok ⊢
    cases hf : env.review_ids_future with
    | some e => simp [hf] at hok
    | none =>
      simp only [hf] at hok ⊢
      cases hfill : (ReadUserReviews_fill env st user_id start stop
          (zrevrange (st.redis user_id) start (stop - 1))).1 with
      | error e => simp [hfill] at hok
      | ok p =>
        obtain ⟨a, b⟩ := p
        have hp := ReadUserReviews_fill_ok env st user_id start stop _ hfill
        simp only [hfill] at hok ⊢
        rw [← hp]
        have := ReadUserReviews_join_ok env st req_id user_id a b reviews hok
        exact ⟨this.1, by simp [this.2.1], this.2.2⟩

/-- When the cache returns the whole window, `ReadUserReviews` issues no
durable-store access, whatever its dependencies do. -/
theorem ReadUserReviews_no_fallback (env : ReadUserReviewsEnv) (st : UserReviewState)
    (req_id user_id start stop : Int)
    (h : ¬ start + ((zrevrange (st.redis user_id) start (stop - 1)).length : Int) < stop) :
    ∀ ev ∈ (ReadUserReviews env st req_id user_id start stop).trace, ev.isMongo = false := by
  intro ev hev
  unfold ReadUserReviews at hev
  split at hev
  · simp at hev
  split at hev
  · simp at hev; subst hev; rfl
  split at hev
  · simp at hev
    rcases hev with rfl | rfl | rfl <;> rfl
  have ht1 : ev ∈ ([.Pop .memcached_client_pool true,
        .zrevrange user_id start (stop - 1), .commit true, .Push .memcached_client_pool] :
        List Event) → ev.isMongo = false := by
    intro h
    simp at h
    rcases h with rfl | rfl | rfl | rfl <;> rfl
  split at hev
  · exact ht1 hev
  simp only [] at hev
  rw [ReadUserReviews_fill_no_mongo env st user_id start stop _ h] at hev
  split at hev
  · simp only [List.append_nil] at hev
    exact ht1 hev
  · simp only [List.append_nil, List.mem_append] at hev
    rcases hev with h1 | h1
    · exact ht1 h1
    · exact ReadUserReviews_join_no_mongo _ _ _ _ _ _ ev h1

theorem zsorted_set_redis (st : UserReviewState) (key : Int) (zs : List ZEntry)
    (h : ∀ k, zsorted (st.redis k)) (hz : zsorted zs) :
    ∀ k, zsorted ((st.set_redis key zs).redis k) := by
  intro k
  unfold UserReviewState.set_redis
  simp only []
  split
  · exact hz
  · exact h k

/-- `UploadUserReview` keeps every cached set in reverse-range order. -/
theorem UploadUserReview_zsorted (h : UserReviewHandler) (env : UploadUserReviewEnv)
    (st : UserReviewState) (req_id user_id review_id timestamp : Int)
    (hs : ∀ k, zsorted (st.redis k)) :
    ∀ k, zsorted ((UploadUserReview h env st req_id user_id review_id timestamp).state.redis k) := by
  unfold UploadUserReview
  simp only []
  split
  · exact hs
  split
  · exact hs
  split
  · exact hs
  split
  · exact hs
  split
  · exact hs
  · exact zsorted_set_redis _ _ _ hs (zsorted_zadd _ _ (hs user_id))

theorem ReadUserReviews_join_zsorted (env : ReadUserReviewsEnv) (st : UserReviewState)
    (req_id user_id : Int) (review_ids : List Int) (redis_update_map : List (Int × Int))
    (hs : ∀ k, zsorted (st.redis k)) :
    ∀ k, zsorted
      ((ReadUserReviews_join env st req_id user_id review_ids redis_update_map).state.redis k) := by
  have h1 := zsorted_set_redis st user_id (zadd [] redis_update_map) hs
    (zsorted_zadd _ _ List.Pairwise.nil)
  unfold ReadUserReviews_join
  simp only []
  split
  · exact hs
  split
  · exact hs
  split
  · exact hs
  split
  · exact h1
  split <;> exact h1

/-- `ReadUserReviews` keeps every cached set in reverse-range order. -/
theorem ReadUserReviews_zsorted (env : ReadUserReviewsEnv) (st : UserReviewState)
    (req_id user_id start stop : Int) (hs : ∀ k, zsorted (st.redis k)) :
    ∀ k, zsorted ((ReadUserReviews env st req_id user_id start stop).state.redis k) := by
  unfold ReadUserReviews
  split
  · exact hs
  split
  · exact hs
  split
  · exact hs
  split
  · exact hs
  simp only []
  split
  · exact hs
  · exact ReadUserReviews_join_zsorted _ _ _ _ _ _ hs

/-! ## Lemmas on `UploadUserReview` and on the pooled calls -/

/-- After a successful `UploadUserReview` the cached set of the user is the
previous one with the new pair added. -/
theorem UploadUserReview_ok_redis (h : UserReviewHandler) (env : UploadUserReviewEnv)
    (st : UserReviewState) (req_id user_id review_id timestamp : Int)
    (hok : (UploadUserReview h env st req_id user_id review_id timestamp).result = .ok ()) :
    (UploadUserReview h env st req_id user_id review_id timestamp).state.redis user_id =
      zadd1 (st.redis user_id) timestamp review_id := by
  unfold UploadUserReview UploadUserReview_mongodb at *
  cases hm : env.mongodb_client <;> simp [hm] at hok ⊢
  cases hc : env.collection <;> simp [hc] at hok ⊢
  cases hd : st.mongodb user_id <;> simp [hd] at hok ⊢
  · cases hi : env.insert_error <;> simp [hi] at hok ⊢
    cases hr : env.redis_client_wrapper <;> simp [hr] at hok ⊢
    cases hs : env.sync_commit <;> simp [hs] at hok ⊢
    simp [UserReviewState.set_redis, zadd]
  · cases hi : env.update_error <;> simp [hi] at hok ⊢
    cases hr : env.redis_client_wrapper <;> simp [hr] at hok ⊢
    cases hs : env.sync_commit <;> simp [hs] at hok ⊢
    simp [UserReviewState.set_redis, zadd]

theorem zadd1_head (zs : List ZEntry) (score member : Int)
    (hnew : ∀ e ∈ zs, e.member ≠ member → e.score < score) :
    zadd1 zs score member =
      ⟨score, member⟩ :: zs.filter (fun x => decide (x.member ≠ member)) := by
  unfold zadd1
  apply zinsert_head
  intro x hx
  rw [List.mem_filter] at hx
  exact hnew x hx.1 (by simpa using hx.2)


theorem pooled_call_trace {α : Type} (pool : Pool) (client_wrapper : Bool) (message : String)
    (call : Event) (answer : Except Exn α) :
    ∀ ev ∈ (pooled_call pool client_wrapper message call answer).2,
      ev = .Pop pool false ∨ ev = .Pop pool true ∨ ev = call ∨ ev = .Push pool := by
  intro ev hev
  unfold pooled_call at hev
  split at hev
  · simp at hev; exact Or.inl hev
  · simp at hev; tauto


theorem outstanding_append (p : Pool) (t₁ t₂ : List Event) :
    outstanding p (t₁ ++ t₂) = outstanding p t₁ + outstanding p t₂ := by
  unfold outstanding
  simp only [List.count_append, Nat.cast_add]
  omega

/-- A pooled remote call leaves no connection outstanding, whether the pool
yields a client or not and whether the call returns or throws. -/
theorem outstanding_pooled_call {α : Type} (p pool : Pool) (client_wrapper : Bool)
    (message : String) (call : Event) (answer : Except Exn α)
    (h1 : call ≠ .Pop p true) (h2 : call ≠ .Push p) :
    outstanding p (pooled_call pool client_wrapper message call answer).2 = 0 := by
  unfold pooled_call outstanding
  split
  · simp [List.count_cons]
  · by_cases hp : pool = p
    · subst hp
      simp [List.count_cons, h1, h2]
    · simp [List.count_cons, h1, h2, hp]

/-- `ReadPage` leaves no connection of any pool outstanding, on every outcome
of its dependencies. -/
theorem ReadPage_pools_released (h : PageHandler) (env : ReadPageEnv) (req_id : Int)
    (movie_id : String) (review_start review_stop : Int) (p : Pool) :
    outstanding p (ReadPage h env req_id movie_id review_start review_stop).trace = 0 := by
  have a := outstanding_pooled_call p .movie_info_client_pool env.movie_info_client_wrapper
    "Failed to connected to movie-info-service" (.ReadMovieInfo req_id movie_id)
    (env.ReadMovieInfo req_id movie_id) (by simp) (by simp)
  have b := outstanding_pooled_call p .movie_review_client_pool env.movie_review_client_wrapper
    "Failed to connected to movie-review-service"
    (.ReadMovieReviews req_id movie_id review_start review_stop)
    (env.ReadMovieReviews req_id movie_id review_start review_stop) (by simp) (by simp)
  have c := fun mi => outstanding_pooled_call p .cast_info_client_pool
    env.cast_info_client_wrapper "Failed to connected to cast-info-service"
    (.ReadCastInfo req_id (cast_info_ids mi)) (env.ReadCastInfo req_id (cast_info_ids mi))
    (by simp) (by simp)
  have d := fun (mi : MovieInfo) => outstanding_pooled_call p .plot_client_pool
    env.plot_client_wrapper "Failed to connected to plot-service"
    (.ReadPlot req_id mi.plot_id) (env.ReadPlot req_id mi.plot_id) (by simp) (by simp)
  unfold ReadPage
  simp only []
  split
  · rw [outstanding_append]
    unfold movie_info_future movie_review_future
    rw [a, b]; rfl
  · rename_i mi _
    have e : outstanding p ((movie_info_future env req_id movie_id).2 ++
        (movie_review_future env req_id movie_id review_start review_stop).2 ++
        (cast_info_future env req_id mi).2 ++ (plot_future env req_id mi).2) = 0 := by
      rw [outstanding_append, outstanding_append, outstanding_append]
      unfold movie_info_future movie_review_future cast_info_future plot_future
      rw [a, b, c, d]; rfl
    split
    · exact e
    · split
      · exact e
      · split <;> exact e

/-- `UploadText` leaves no connection of any pool outstanding, on every outcome
of its dependencies. -/
theorem UploadText_pools_released (h : TextHandler) (env : UploadTextEnv) (req_id : Int)
    (text : String) (p : Pool) :
    outstanding p (UploadText h env req_id text).trace = 0 := by
  unfold UploadText
  simp only []
  rw [outstanding_append, outstanding_pooled_call p _ _ _ _ _ (by simp) (by simp)]
  split <;> simp [outstanding, List.count_cons]

/-! ## Properties of `ReadUserReviews` and `UploadUserReview` -/

/-- C1 (code defect): the id list `ReadUserReviews` hands to the review-content
service can be longer than `stop - start`. After the uploads of review 100
(timestamp 10) and 101 (timestamp 5) for user 7 into empty tiers, the read of
the window `[0, 3)` gets two ids from the cache and then appends the durable
entries from index `start = 0` on instead of from index `start + 2`: four ids
are handed over and four reviews returned, for a window of three. -/
theorem ReadUserReviews_longer_than_window :
    Event.ReadReviews 1 [100, 101, 101, 100] ∈
        (ReadUserReviews .succeed
          (after_uploads ⟨0⟩ .succeed 7 .empty [(100, 10), (101, 5)]) 1 7 0 3).trace ∧
      (ReadUserReviews .succeed
          (after_uploads ⟨0⟩ .succeed 7 .empty [(100, 10), (101, 5)]) 1 7 0 3).result =
        .ok [⟨100, ""⟩, ⟨101, ""⟩, ⟨101, ""⟩, ⟨100, ""⟩] ∧
      ¬ (([100, 101, 101, 100] : List Int).length : Int) ≤ 3 - 0 := by
  refine ⟨by decide, rfl, by decide⟩

/-- C2 (code defect): the id list `ReadUserReviews` builds can hold the same
review id twice although the durable list holds distinct ids. After the single
upload of review 100 for user 7 into empty tiers, the read of the window
`[0, 2)` gets id 100 from the cache and appends it again from the durable
store. -/
theorem ReadUserReviews_duplicates_id :
    (after_uploads ⟨0⟩ .succeed 7 .empty [(100, 10)]).mongodb 7 = some [.review 100 10] ∧
      Event.ReadReviews 1 [100, 100] ∈
        (ReadUserReviews .succeed
          (after_uploads ⟨0⟩ .succeed 7 .empty [(100, 10)]) 1 7 0 2).trace ∧
      ¬ ([100, 100] : List Int).Nodup := by
  refine ⟨rfl, by decide, by decide⟩

/-- C3 (counterexample): the id list is not always in descending-timestamp
order. Reviews 100 (timestamp 10) and then 101 (timestamp 5) are uploaded for
user 7 while the cache pool yields no connection, so that only the durable list
holds them, newest upload first. The read of the window `[0, 2)` finds no cache
hit and takes both ids from the durable list in its order: 101 (timestamp 5)
comes before 100 (timestamp 10). -/
theorem ReadUserReviews_not_descending :
    (after_uploads ⟨0⟩ .cache_down 7 .empty [(100, 10), (101, 5)]).mongodb 7 =
        some [.review 101 5, .review 100 10] ∧
      (after_uploads ⟨0⟩ .cache_down 7 .empty [(100, 10), (101, 5)]).redis 7 = [] ∧
      Event.ReadReviews 1 [101, 100] ∈
        (ReadUserReviews .succeed
          (after_uploads ⟨0⟩ .cache_down 7 .empty [(100, 10), (101, 5)]) 1 7 0 2).trace ∧
      (ReadUserReviews .succeed
          (after_uploads ⟨0⟩ .cache_down 7 .empty [(100, 10), (101, 5)]) 1 7 0 2).result =
        .ok [⟨101, ""⟩, ⟨100, ""⟩] ∧
      ¬ (5 : Int) ≥ 10 := by
  refine ⟨rfl, rfl, by decide, rfl, by decide⟩

/-- C3 (amended): for `0 <= start < stop` and a cached set in reverse-range
order, every id list `ReadUserReviews` hands to the review-content service is
the members of the cache window `[start, stop)` followed by a list `fill` of
ids from the durable store; the cache hits are in descending-timestamp order
(each score is at least the next one); `fill` follows the order of the user's
durable list, which is insertion order and not timestamp order; and `fill` is
empty when the cached set holds at least `stop` entries. -/
theorem ReadUserReviews_cache_hits_descending (env : ReadUserReviewsEnv)
    (st : UserReviewState) (req_id user_id start stop : Int) (r : Int) (ids : List Int)
    (h0 : 0 ≤ start) (h1 : start < stop) (hs : zsorted (st.redis user_id))
    (hids : Event.ReadReviews r ids ∈
      (ReadUserReviews env st req_id user_id start stop).trace) :
    ∃ fill : List Int,
      ids = (((st.redis user_id).drop start.toNat).take (stop - start).toNat).map
          ZEntry.member ++ fill ∧
        zsorted (((st.redis user_id).drop start.toNat).take (stop - start).toNat) ∧
        fill.Sublist ((review_pairs ((st.mongodb user_id).getD [])).map Prod.snd) ∧
        (stop ≤ ((st.redis user_id).length : Int) → fill = []) := by
  have hsorted : zsorted (((st.redis user_id).drop start.toNat).take (stop - start).toNat) :=
    List.Pairwise.sublist ((List.take_sublist _ _).trans (List.drop_sublist _ _)) hs
  have hh := ReadUserReviews_handed env st req_id user_id start stop r ids hids
  have hlen := zrevrange_length (st.redis user_id) start stop h0 h1
  unfold ReadUserReviews_review_ids at hh
  simp only [] at hh
  by_cases hfb : start + ((zrevrange (st.redis user_id) start (stop - 1)).length : Int) < stop
  · rw [if_pos hfb] at hh
    have hnot : ¬ stop ≤ ((st.redis user_id).length : Int) := by omega
    cases hdoc : st.mongodb user_id with
    | none =>
      simp only [hdoc] at hh
      refine ⟨[], ?_, hsorted, List.nil_sublist _, fun _ => rfl⟩
      rw [hh, zrevrange_eq _ _ _ h0 h1, List.append_nil]
    | some reviews =>
      simp only [hdoc] at hh
      rw [ReadUserReviews_loop_eq] at hh
      simp only [] at hh
      refine ⟨(review_pairs ((reviews.take stop.toNat).drop (start - 0).toNat)).map Prod.snd,
        ?_, hsorted, ?_, fun h => absurd h hnot⟩
      · rw [hh, zrevrange_eq _ _ _ h0 h1]
      · simp only [Option.getD_some]
        exact List.Sublist.map _ (review_pairs_sublist
          ((List.drop_sublist _ _).trans (List.take_sublist _ _)))
  · rw [if_neg hfb] at hh
    refine ⟨[], ?_, hsorted, List.nil_sublist _, fun _ => rfl⟩
    rw [hh, zrevrange_eq _ _ _ h0 h1, List.append_nil]

/-- Witness of C3 (amended): after the uploads of review 100 (timestamp 10) and
101 (timestamp 5), the read of `[0, 2)` hands over `[100, 101]`. -/
theorem ReadUserReviews_cache_hits_descending_witness :
    (0 : Int) ≤ 0 ∧ (0 : Int) < 2 ∧
      zsorted ((after_uploads ⟨0⟩ .succeed 7 .empty [(100, 10), (101, 5)]).redis 7) ∧
      Event.ReadReviews 1 [100, 101] ∈
        (ReadUserReviews .succeed
          (after_uploads ⟨0⟩ .succeed 7 .empty [(100, 10), (101, 5)]) 1 7 0 2).trace ∧
      ∃ fill : List Int,
        [100, 101] =
            ((((after_uploads ⟨0⟩ .succeed 7 .empty [(100, 10), (101, 5)]).redis 7).drop
              (0 : Int).toNat).take ((2 : Int) - 0).toNat).map ZEntry.member ++ fill ∧
          zsorted ((((after_uploads ⟨0⟩ .succeed 7 .empty [(100, 10), (101, 5)]).redis 7).drop
            (0 : Int).toNat).take ((2 : Int) - 0).toNat) ∧
          fill.Sublist ((review_pairs
            (((after_uploads ⟨0⟩ .succeed 7 .empty [(100, 10), (101, 5)]).mongodb 7).getD
              [])).map Prod.snd) ∧
          ((2 : Int) ≤
            (((after_uploads ⟨0⟩ .succeed 7 .empty [(100, 10), (101, 5)]).redis 7).length : Int) →
            fill = []) :=
  ⟨by decide, by decide, by decide, by decide,
    ReadUserReviews_cache_hits_descending .succeed
      (after_uploads ⟨0⟩ .succeed 7 .empty [(100, 10), (101, 5)]) 1 7 0 2 1 [100, 101]
      (by decide) (by decide) (by decide) (by decide)⟩

/-- C4: for `stop <= start` or `start < 0`, `ReadUserReviews` returns the empty
sequence, issues no operation at all (no pool is acquired, no cache, store or
remote operation is sent) and leaves both tiers as they were. -/
theorem ReadUserReviews_invalid_range (env : ReadUserReviewsEnv) (st : UserReviewState)
    (req_id user_id start stop : Int) (h : stop ≤ start ∨ start < 0) :
    (ReadUserReviews env st req_id user_id start stop).result = .ok [] ∧
      (ReadUserReviews env st req_id user_id start stop).trace = [] ∧
      (ReadUserReviews env st req_id user_id start stop).state = st := by
  unfold ReadUserReviews
  rw [if_pos h]
  exact ⟨rfl, rfl, rfl⟩

/-- Witness of C4 at the empty window `[3, 3)` and at a negative start. -/
theorem ReadUserReviews_invalid_range_witness :
    ((3 : Int) ≤ 3 ∨ (3 : Int) < 0) ∧
      (ReadUserReviews .succeed .empty 1 7 3 3).result = .ok [] ∧
      (ReadUserReviews .succeed .empty 1 7 3 3).trace = [] ∧
      (ReadUserReviews .succeed .empty 1 7 3 3).state = .empty :=
  ⟨by decide, ReadUserReviews_invalid_range .succeed .empty 1 7 3 3 (by decide)⟩

/-- C5 (counterexample): a read of `[0, 1)` right after an upload need not
return the uploaded review. User 7 has review 100 with timestamp 10 in both
tiers; review 101 is uploaded with the older timestamp 5; the read of `[0, 1)`
that follows asks the review-content service for `[100]` and returns review
100, not 101. -/
theorem UploadUserReview_read_returns_other_review :
    (UploadUserReview ⟨0⟩ .succeed
        (after_uploads ⟨0⟩ .succeed 7 .empty [(100, 10)]) 2 7 101 5).result = .ok () ∧
      Event.ReadReviews 3 [100] ∈
        (ReadUserReviews .succeed
          (UploadUserReview ⟨0⟩ .succeed
            (after_uploads ⟨0⟩ .succeed 7 .empty [(100, 10)]) 2 7 101 5).state 3 7 0 1).trace ∧
      (ReadUserReviews .succeed
          (UploadUserReview ⟨0⟩ .succeed
            (after_uploads ⟨0⟩ .succeed 7 .empty [(100, 10)]) 2 7 101 5).state 3 7 0 1).result =
        .ok [⟨100, ""⟩] ∧
      (100 : Int) ≠ 101 := by
  refine ⟨rfl, by decide, rfl, by decide⟩

/-- C5 (amended): after a successful `UploadUserReview(u, r, t)` whose
timestamp `t` is greater than the score of every other entry cached for `u`, a
successful `ReadUserReviews(u, 0, 1)` that follows immediately asks the
review-content service for exactly the id list `[r]` and returns that service's
answer for `[r]`. -/
theorem UploadUserReview_read_own_write (h : UserReviewHandler)
    (env : UploadUserReviewEnv) (env_read : ReadUserReviewsEnv) (st : UserReviewState)
    (req_id read_req_id user_id review_id timestamp : Int) (reviews : List Review)
    (hup : (UploadUserReview h env st req_id user_id review_id timestamp).result = .ok ())
    (hnew : ∀ e ∈ st.redis user_id, e.member ≠ review_id → e.score < timestamp)
    (hrd : (ReadUserReviews env_read
      (UploadUserReview h env st req_id user_id review_id timestamp).state
      read_req_id user_id 0 1).result = .ok reviews) :
    env_read.ReadReviews read_req_id [review_id] = .ok reviews ∧
      Event.ReadReviews read_req_id [review_id] ∈
        (ReadUserReviews env_read
          (UploadUserReview h env st req_id user_id review_id timestamp).state
          read_req_id user_id 0 1).trace ∧
      ∀ r ids, Event.ReadReviews r ids ∈
        (ReadUserReviews env_read
          (UploadUserReview h env st req_id user_id review_id timestamp).state
          read_req_id user_id 0 1).trace → ids = [review_id] := by
  have hredis := UploadUserReview_ok_redis h env st req_id user_id review_id timestamp hup
  have hids : (ReadUserReviews_review_ids
      (UploadUserReview h env st req_id user_id review_id timestamp).state user_id 0 1).1 =
      [review_id] := by
    unfold ReadUserReviews_review_ids
    simp only []
    rw [zrevrange_eq _ 0 1 (le_refl 0) (by decide), hredis,
      zadd1_head _ _ _ hnew]
    simp
  have hres := ReadUserReviews_result_ok env_read _ read_req_id user_id 0 1 reviews
    (by decide) hrd
  rw [hids] at hres
  refine ⟨hres.1, hres.2.1, ?_⟩
  intro r ids hmem
  rw [← hids]
  exact ReadUserReviews_handed _ _ _ _ _ _ _ _ hmem

/-- Witness of C5 (amended): review 101 uploaded with timestamp 20 after review
100 with timestamp 10, then read back. -/
theorem UploadUserReview_read_own_write_witness :
    (UploadUserReview ⟨0⟩ .succeed
        (after_uploads ⟨0⟩ .succeed 7 .empty [(100, 10)]) 2 7 101 20).result = .ok () ∧
      (∀ e ∈ (after_uploads ⟨0⟩ .succeed 7 .empty [(100, 10)]).redis 7,
        e.member ≠ 101 → e.score < 20) ∧
      (ReadUserReviews .succeed
          (UploadUserReview ⟨0⟩ .succeed
            (after_uploads ⟨0⟩ .succeed 7 .empty [(100, 10)]) 2 7 101 20).state 3 7 0 1).result =
        .ok [⟨101, ""⟩] ∧
      (ReadUserReviewsEnv.succeed.ReadReviews 3 [101] = .ok [⟨101, ""⟩] ∧
        Event.ReadReviews 3 [101] ∈
          (ReadUserReviews .succeed
            (UploadUserReview ⟨0⟩ .succeed
              (after_uploads ⟨0⟩ .succeed 7 .empty [(100, 10)]) 2 7 101 20).state
            3 7 0 1).trace ∧
        ∀ r ids, Event.ReadReviews r ids ∈
          (ReadUserReviews .succeed
            (UploadUserReview ⟨0⟩ .succeed
              (after_uploads ⟨0⟩ .succeed 7 .empty [(100, 10)]) 2 7 101 20).state
            3 7 0 1).trace → ids = [101]) :=
  ⟨rfl, by decide, rfl,
    UploadUserReview_read_own_write ⟨0⟩ .succeed .succeed
      (after_uploads ⟨0⟩ .succeed 7 .empty [(100, 10)]) 2 3 7 101 20 [⟨101, ""⟩]
      rfl (by decide) rfl⟩

/-- C6 (counterexample): a second read of the same window can query the durable
store again. User 7 has the single review 100 in the durable store and a cold
cache. The read of `[0, 2)` finds the cache shorter than the window, queries the
durable store and rebuilds the cache with the one entry there is; the second
read of `[0, 2)`, with no write in between, gets one id from the cache, still
fewer than two, and queries the durable store again. -/
theorem ReadUserReviews_second_read_queries_store :
    Event.mongoc_collection_find_with_opts 7 (some 2) ∈
        (ReadUserReviews .succeed
          (after_uploads ⟨0⟩ .cache_down 7 .empty [(100, 10)]) 1 7 0 2).trace ∧
      (ReadUserReviews .succeed
          (after_uploads ⟨0⟩ .cache_down 7 .empty [(100, 10)]) 1 7 0 2).result =
        .ok [⟨100, ""⟩] ∧
      (ReadUserReviews .succeed
          (after_uploads ⟨0⟩ .cache_down 7 .empty [(100, 10)]) 1 7 0 2).state.redis 7 =
        [⟨10, 100⟩] ∧
      Event.mongoc_collection_find_with_opts 7 (some 2) ∈
        (ReadUserReviews .succeed
          (ReadUserReviews .succeed
            (after_uploads ⟨0⟩ .cache_down 7 .empty [(100, 10)]) 1 7 0 2).state
          2 7 0 2).trace := by
  refine ⟨by decide, rfl, rfl, by decide⟩

/-- C6 (amended): for `0 <= start < stop`, if a successful `ReadUserReviews`
found the cache shorter than the window (and so fell back to the durable store
and rebuilt the cache), and the user's durable list holds at least `stop`
entries whose first `stop` are well-formed with pairwise distinct review ids,
then a second `ReadUserReviews` for the same user and window, with no write in
between, accesses the durable store not at all, whatever its dependencies
do. -/
theorem ReadUserReviews_second_read_from_cache (env env_second : ReadUserReviewsEnv)
    (st : UserReviewState) (req_id second_req_id user_id start stop : Int)
    (reviews : List Review) (elems : List ReviewsElem)
    (h0 : 0 ≤ start) (h1 : start < stop)
    (hfb : start + ((zrevrange (st.redis user_id) start (stop - 1)).length : Int) < stop)
    (hok : (ReadUserReviews env st req_id user_id start stop).result = .ok reviews)
    (hdoc : st.mongodb user_id = some elems)
    (hlen : stop ≤ (elems.length : Int))
    (hwf : ∀ x ∈ elems.take stop.toNat, x ≠ .other)
    (hnd : ((review_pairs (elems.take stop.toNat)).map Prod.snd).Nodup) :
    ∀ ev ∈ (ReadUserReviews env_second
        (ReadUserReviews env st req_id user_id start stop).state
        second_req_id user_id start stop).trace, ev.isMongo = false := by
  have hv : ¬ (stop ≤ start ∨ start < 0) := by omega
  have hres := (ReadUserReviews_result_ok env st req_id user_id start stop reviews hv hok).2.2
  have hmap : (ReadUserReviews_review_ids st user_id start stop).2 =
      (review_pairs (elems.take stop.toNat)).foldl (fun m p => multimap_insert p m) [] := by
    unfold ReadUserReviews_review_ids
    simp only []
    rw [if_pos hfb]
    simp only [hdoc]
    rw [ReadUserReviews_loop_eq]
  have hperm := multimap_fold_perm (review_pairs (elems.take stop.toNat)) []
  rw [← hmap, List.append_nil] at hperm
  have hmlen : (ReadUserReviews_review_ids st user_id start stop).2.length = stop.toNat := by
    rw [hperm.length_eq, length_review_pairs _ hwf, List.length_take]
    omega
  have hmnd : ((ReadUserReviews_review_ids st user_id start stop).2.map Prod.snd).Nodup :=
    (List.Perm.nodup_iff (hperm.map Prod.snd)).2 hnd
  have hne : (ReadUserReviews_review_ids st user_id start stop).2.isEmpty = false := by
    cases hm : (ReadUserReviews_review_ids st user_id start stop).2 with
    | nil => rw [hm] at hmlen; simp at hmlen; omega
    | cons a l => rfl
  rw [hne] at hres
  simp only [Bool.false_eq_true, if_false] at hres
  have hcache : ((ReadUserReviews env st req_id user_id start stop).state.redis user_id).length =
      stop.toNat := by
    rw [hres]
    simp only [UserReviewState.set_redis, if_true]
    rw [length_zadd _ _ hmnd (by simp), hmlen]
    simp
  apply ReadUserReviews_no_fallback
  rw [zrevrange_length _ _ _ h0 h1, hcache]
  omega

/-- Witness of C6 (amended): user 7 has two reviews in the durable store and a
cold cache; the first read of `[0, 2)` queries the store, the second does
not. -/
theorem ReadUserReviews_second_read_from_cache_witness :
    (0 : Int) ≤ 0 ∧ (0 : Int) < 2 ∧
      Event.mongoc_collection_find_with_opts 7 (some 2) ∈
        (ReadUserReviews .succeed
          (after_uploads ⟨0⟩ .cache_down 7 .empty [(100, 10), (101, 5)]) 1 7 0 2).trace ∧
      (ReadUserReviews .succeed
          (after_uploads ⟨0⟩ .cache_down 7 .empty [(100, 10), (101, 5)]) 1 7 0 2).result =
        .ok [⟨101, ""⟩, ⟨100, ""⟩] ∧
      ∀ ev ∈ (ReadUserReviews .succeed
          (ReadUserReviews .succeed
            (after_uploads ⟨0⟩ .cache_down 7 .empty [(100, 10), (101, 5)]) 1 7 0 2).state
          2 7 0 2).trace, ev.isMongo = false :=
  ⟨by decide, by decide, by decide, rfl,
    ReadUserReviews_second_read_from_cache .succeed .succeed
      (after_uploads ⟨0⟩ .cache_down 7 .empty [(100, 10), (101, 5)]) 1 2 7 0 2
      [⟨101, ""⟩, ⟨100, ""⟩] [.review 101 5, .review 100 10]
      (by decide) (by decide) (by decide) rfl rfl (by decide) (by decide) (by decide)⟩

/-- C7: after a successful `UploadUserReview(u, r, t)` the durable list of `u`
is the singleton `[(r, t)]` when `u` had no document, and `(r, t)` followed by
the previous list, unchanged and in its previous order, when `u` had one; the
document of every other user is unchanged. -/
theorem UploadUserReview_prepends (h : UserReviewHandler) (env : UploadUserReviewEnv)
    (st : UserReviewState) (req_id user_id review_id timestamp : Int)
    (hok : (UploadUserReview h env st req_id user_id review_id timestamp).result = .ok ()) :
    (st.mongodb user_id = none →
        (UploadUserReview h env st req_id user_id review_id timestamp).state.mongodb user_id =
          some [.review review_id timestamp]) ∧
      (∀ reviews, st.mongodb user_id = some reviews →
        (UploadUserReview h env st req_id user_id review_id timestamp).state.mongodb user_id =
          some (.review review_id timestamp :: reviews)) ∧
      (∀ u, u ≠ user_id →
        (UploadUserReview h env st req_id user_id review_id timestamp).state.mongodb u =
          st.mongodb u) := by
  unfold UploadUserReview UploadUserReview_mongodb at *
  cases hm : env.mongodb_client <;> simp [hm] at hok ⊢
  cases hc : env.collection <;> simp [hc] at hok ⊢
  cases hd : st.mongodb user_id <;> simp [hd] at hok ⊢
  · cases hi : env.insert_error <;> simp [hi] at hok ⊢
    cases hr : env.redis_client_wrapper <;> simp [hr] at hok ⊢
    cases hs : env.sync_commit <;> simp [hs] at hok ⊢
    simp [UserReviewState.set_redis]
    intro u hu; simp [hu]
  · cases hi : env.update_error <;> simp [hi] at hok ⊢
    cases hr : env.redis_client_wrapper <;> simp [hr] at hok ⊢
    cases hs : env.sync_commit <;> simp [hs] at hok ⊢
    simp [UserReviewState.set_redis]
    intro u hu; simp [hu]

/-- Witness of C7: review 101 with the older timestamp 5 uploaded after review
100 with timestamp 10 is at position 0 of the durable list. -/
theorem UploadUserReview_prepends_witness :
    (UploadUserReview ⟨0⟩ .succeed
        (after_uploads ⟨0⟩ .succeed 7 .empty [(100, 10)]) 2 7 101 5).result = .ok () ∧
      (after_uploads ⟨0⟩ .succeed 7 .empty [(100, 10)]).mongodb 7 = some [.review 100 10] ∧
      (UploadUserReview ⟨0⟩ .succeed
        (after_uploads ⟨0⟩ .succeed 7 .empty [(100, 10)]) 2 7 101 5).state.mongodb 7 =
          some [.review 101 5, .review 100 10] :=
  ⟨rfl, rfl,
    (UploadUserReview_prepends ⟨0⟩ .succeed
      (after_uploads ⟨0⟩ .succeed 7 .empty [(100, 10)]) 2 7 101 5 rfl).2.1 _ rfl⟩

/-! ## Properties of `ReadPage` -/

/-- C8: `ReadPage` is all-or-nothing. When the movie-info task fails, the call
fails with that error and no operation of the cast-info or plot task is issued.
When it succeeds, the call fails with the error of the review task if that one
failed, else with the error of the plot task if that one failed, else with the
error of the cast-info task if that one failed. A page is returned only when all
four tasks succeeded, and its four parts are their four answers. -/
theorem ReadPage_all_or_nothing (h : PageHandler) (env : ReadPageEnv) (req_id : Int)
    (movie_id : String) (review_start review_stop : Int) :
    (∀ e, (movie_info_future env req_id movie_id).1 = .error e →
        (ReadPage h env req_id movie_id review_start review_stop).result = .error e ∧
        ∀ ev ∈ (ReadPage h env req_id movie_id review_start review_stop).trace,
          ev.isCastInfoOrPlot = false) ∧
      (∀ movie_info, (movie_info_future env req_id movie_id).1 = .ok movie_info →
        (∀ e, (movie_review_future env req_id movie_id review_start review_stop).1 = .error e →
          (ReadPage h env req_id movie_id review_start review_stop).result = .error e) ∧
        (∀ reviews e,
          (movie_review_future env req_id movie_id review_start review_stop).1 = .ok reviews →
          (plot_future env req_id movie_info).1 = .error e →
          (ReadPage h env req_id movie_id review_start review_stop).result = .error e) ∧
        (∀ reviews plot e,
          (movie_review_future env req_id movie_id review_start review_stop).1 = .ok reviews →
          (plot_future env req_id movie_info).1 = .ok plot →
          (cast_info_future env req_id movie_info).1 = .error e →
          (ReadPage h env req_id movie_id review_start review_stop).result = .error e)) ∧
      (∀ page, (ReadPage h env req_id movie_id review_start review_stop).result = .ok page →
        (movie_info_future env req_id movie_id).1 = .ok page.movie_info ∧
        (movie_review_future env req_id movie_id review_start review_stop).1 =
          .ok page.reviews ∧
        (plot_future env req_id page.movie_info).1 = .ok page.plot ∧
        (cast_info_future env req_id page.movie_info).1 = .ok page.cast_infos) := by
  refine ⟨?_, ?_, ?_⟩
  · intro e he
    unfold ReadPage
    simp only [he]
    refine ⟨trivial, ?_⟩
    intro ev hev
    rw [List.mem_append] at hev
    rcases hev with hev | hev
    · rcases pooled_call_trace _ _ _ _ _ ev hev with rfl | rfl | rfl | rfl <;> rfl
    · rcases pooled_call_trace _ _ _ _ _ ev hev with rfl | rfl | rfl | rfl <;> rfl
  · intro movie_info hmi
    unfold ReadPage
    simp only [hmi]
    refine ⟨?_, ?_, ?_⟩
    · intro e he
      simp only [he]
    · intro reviews e hr hp
      simp only [hr, hp]
    · intro reviews plot e hr hp hc
      simp only [hr, hp, hc]
  · intro page hok
    unfold ReadPage at hok
    simp only [] at hok
    cases hmi : (movie_info_future env req_id movie_id).1 with
    | error e => simp [hmi] at hok
    | ok movie_info =>
      simp only [hmi] at hok
      cases hr : (movie_review_future env req_id movie_id review_start review_stop).1 with
      | error e => simp [hr] at hok
      | ok reviews =>
        simp only [hr] at hok
        cases hp : (plot_future env req_id movie_info).1 with
        | error e => simp [hp] at hok
        | ok plot =>
          simp only [hp] at hok
          cases hc : (cast_info_future env req_id movie_info).1 with
          | error e => simp [hc] at hok
          | ok cast_infos =>
            simp only [hc] at hok
            have : page = ⟨movie_info, reviews, cast_infos, plot⟩ := by simpa using hok.symm
            subst this
            exact ⟨rfl, rfl, hp, hc⟩


/-- C9: when every pool yields a client and every remote call succeeds,
`ReadPage(req_id, movie_id, start, stop)` returns the page made of the movie
info the movie-info service answers for `movie_id`, the reviews the review
service answers for `(movie_id, start, stop)`, the cast infos the cast-info
service answers for the list of the `cast_info_id` of the movie info's casts (in
their order, one id per cast), and the plot the plot service answers for the
movie info's `plot_id`; those are the arguments the two services are called
with. -/
theorem ReadPage_assembles (h : PageHandler) (env : ReadPageEnv) (req_id : Int)
    (movie_id : String) (review_start review_stop : Int) (movie_info : MovieInfo)
    (reviews : List Review) (cast_infos : List CastInfo) (plot : String)
    (hpools : env.movie_info_client_wrapper = true ∧ env.movie_review_client_wrapper = true ∧
      env.cast_info_client_wrapper = true ∧ env.plot_client_wrapper = true)
    (hmi : env.ReadMovieInfo req_id movie_id = .ok movie_info)
    (hmr : env.ReadMovieReviews req_id movie_id review_start review_stop = .ok reviews)
    (hci : env.ReadCastInfo req_id (movie_info.casts.map Cast.cast_info_id) = .ok cast_infos)
    (hpl : env.ReadPlot req_id movie_info.plot_id = .ok plot) :
    (ReadPage h env req_id movie_id review_start review_stop).result =
        .ok ⟨movie_info, reviews, cast_infos, plot⟩ ∧
      Event.ReadCastInfo req_id (movie_info.casts.map Cast.cast_info_id) ∈
        (ReadPage h env req_id movie_id review_start review_stop).trace ∧
      Event.ReadPlot req_id movie_info.plot_id ∈
        (ReadPage h env req_id movie_id review_start review_stop).trace ∧
      (movie_info.casts.map Cast.cast_info_id).length = movie_info.casts.length := by
  obtain ⟨h1, h2, h3, h4⟩ := hpools
  unfold ReadPage movie_info_future movie_review_future cast_info_future plot_future
    cast_info_ids pooled_call
  simp [h1, h2, h3, h4, hmi, hmr, hci, hpl]

/-- Witness of C9 on the services of `ReadPageEnv.succeed`. -/
theorem ReadPage_assembles_witness :
    (ReadPageEnv.succeed.movie_info_client_wrapper = true ∧
        ReadPageEnv.succeed.movie_review_client_wrapper = true ∧
        ReadPageEnv.succeed.cast_info_client_wrapper = true ∧
        ReadPageEnv.succeed.plot_client_wrapper = true) ∧
      (ReadPage ⟨0⟩ .succeed 1 "m1" 0 10).result =
        .ok ⟨⟨"m1", [⟨1, 11⟩, ⟨2, 12⟩], 5⟩, [⟨100, "review"⟩],
          [⟨11, "cast"⟩, ⟨12, "cast"⟩], "plot"⟩ ∧
      Event.ReadCastInfo 1 [11, 12] ∈ (ReadPage ⟨0⟩ .succeed 1 "m1" 0 10).trace ∧
      Event.ReadPlot 1 5 ∈ (ReadPage ⟨0⟩ .succeed 1 "m1" 0 10).trace ∧
      ([11, 12] : List Int).length = 2 :=
  ⟨⟨rfl, rfl, rfl, rfl⟩,
    ReadPage_assembles ⟨0⟩ .succeed 1 "m1" 0 10 ⟨"m1", [⟨1, 11⟩, ⟨2, 12⟩], 5⟩
      [⟨100, "review"⟩] [⟨11, "cast"⟩, ⟨12, "cast"⟩] "plot" ⟨rfl, rfl, rfl, rfl⟩
      rfl rfl rfl rfl⟩

/-! ## The pool-release invariant -/

/-- C10 (code defect): a cache connection is not given back when a cache
operation throws. In `UploadUserReview`, in `ReadUserReviews` and in the cache
task of `UploadRating` the connection acquired from the cache pool is pushed
back only after `commit()` / `sync_commit()` has returned: when that call
throws, the handler fails and one connection of the pool stays outstanding. -/
theorem cache_connection_not_released :
    outstanding .memcached_client_pool
        (UploadUserReview ⟨0⟩ .commit_throws .empty 1 7 100 10).trace = 1 ∧
      (UploadUserReview ⟨0⟩ .commit_throws .empty 1 7 100 10).result =
        .error (.other "cpp_redis::redis_error") ∧
      outstanding .memcached_client_pool
        (ReadUserReviews .commit_throws .empty 1 7 0 1).trace = 1 ∧
      outstanding .redis_client_pool
        (UploadRating ⟨0⟩ .commit_throws (fun _ => 0) 1 "m1" 4).trace = 1 := by
  refine ⟨by decide, rfl, by decide, by decide⟩


/-! ## Properties of `UploadRating` -/

/-- The key of a counter determines the movie id. -/
theorem uncommit_key_inj (m₁ m₂ : String) (suffix : String)
    (h : m₁ ++ suffix = m₂ ++ suffix) : m₁ = m₂ := by
  have := congrArg String.data h
  simp only [String.data_append] at this
  exact String.ext (List.append_cancel_right this)

/-- No sum counter shares its key with a count counter. -/
theorem uncommit_sum_ne_num (m₁ m₂ : String) :
    m₁ ++ ":uncommit_sum" ≠ m₂ ++ ":uncommit_num" := by
  intro h
  have := congrArg String.data h
  simp only [String.data_append] at this
  have h2 := (List.append_inj' this (by decide)).2
  exact absurd h2 (by decide)

/-- A successful `UploadRating(movie_id, rating)` adds `rating` to the sum counter
and 1 to the count counter of `movie_id`, and leaves the counters of every other
movie id as they were. -/
theorem UploadRating_ok_state (h : RatingHandler) (env : UploadRatingEnv)
    (redis : String → Int) (req_id : Int) (movie_id : String) (rating : Int)
    (hok : (UploadRating h env redis req_id movie_id rating).result = .ok ()) (m : String) :
    (UploadRating h env redis req_id movie_id rating).state (m ++ ":uncommit_sum") =
        redis (m ++ ":uncommit_sum") + (if movie_id = m then rating else 0) ∧
      (UploadRating h env redis req_id movie_id rating).state (m ++ ":uncommit_num") =
        redis (m ++ ":uncommit_num") + (if movie_id = m then 1 else 0) := by
  unfold UploadRating UploadRating_redis_future at hok ⊢
  simp only [] at hok ⊢
  cases hu : (pooled_call Pool.compose_client_pool env.compose_client_wrapper
      "Failed to connected to compose-review-service" (Event.UploadRating req_id rating)
      (env.UploadRating req_id rating)).1 with
  | error e => simp [hu] at hok
  | ok _ =>
    simp only [hu] at hok ⊢
    cases hw : env.redis_client_wrapper
    · simp [hw] at hok
    · simp only [hw, Bool.not_true, Bool.false_eq_true, if_false] at hok ⊢
      cases hc : env.sync_commit with
      | some e => simp [hc] at hok
      | none =>
        simp only [hc]
        have e1 : ∀ a b : String, (a ++ ":uncommit_sum" = b ++ ":uncommit_sum") ↔ a = b :=
          fun a b => ⟨uncommit_key_inj a b _, fun h => by rw [h]⟩
        have e2 : ∀ a b : String, (a ++ ":uncommit_num" = b ++ ":uncommit_num") ↔ a = b :=
          fun a b => ⟨uncommit_key_inj a b _, fun h => by rw [h]⟩
        have e3 := uncommit_sum_ne_num
        have e4 : ∀ a b : String, a ++ ":uncommit_num" ≠ b ++ ":uncommit_sum" :=
          fun a b h => e3 b a h.symm
        constructor
        · simp only [e3, e1, if_false]
          by_cases hm : movie_id = m
          · simp [hm]
          · have : ¬ m = movie_id := fun h => hm h.symm
            simp [hm, this]
        · simp only [e4, e2, if_false]
          by_cases hm : movie_id = m
          · simp [hm]
          · have : ¬ m = movie_id := fun h => hm h.symm
            simp [hm, this]

/-- C11: after a sequence of `UploadRating` calls that all succeed, the
uncommitted sum of every movie id `m` has grown by the sum of the ratings
uploaded for `m` and its uncommitted count by the number of those uploads, each
upload counting (no dedup); the calls for other movie ids contribute nothing to
the counters of `m`. -/
theorem UploadRating_accumulates (h : RatingHandler) (calls : List UploadRatingCall)
    (redis : String → Int) (m : String)
    (hok : UploadRating_calls_succeed h redis calls) :
    UploadRating_calls h redis calls (m ++ ":uncommit_sum") =
        redis (m ++ ":uncommit_sum") + (ratings_of m calls).sum ∧
      UploadRating_calls h redis calls (m ++ ":uncommit_num") =
        redis (m ++ ":uncommit_num") + ((ratings_of m calls).length : Int) := by
  induction calls generalizing redis with
  | nil => simp [UploadRating_calls, ratings_of]
  | cons c rest ih =>
    obtain ⟨h1, h2⟩ := hok
    have hs := UploadRating_ok_state h c.env redis c.req_id c.movie_id c.rating h1 m
    have := ih _ h2
    simp only [UploadRating_calls]
    rw [this.1, this.2, hs.1, hs.2]
    by_cases hm : c.movie_id = m
    · simp [ratings_of, hm, List.filter_cons]
      constructor <;> ring
    · simp [ratings_of, hm, List.filter_cons]

/-- Witness of C11: ratings 4 then 2 for "m1" on counters at zero give the sum 6
and the count 2. -/
theorem UploadRating_accumulates_witness :
    UploadRating_calls_succeed ⟨0⟩ (fun _ => 0)
        [⟨.succeed, 1, "m1", 4⟩, ⟨.succeed, 2, "m1", 2⟩] ∧
      (UploadRating_calls ⟨0⟩ (fun _ => 0)
          [⟨.succeed, 1, "m1", 4⟩, ⟨.succeed, 2, "m1", 2⟩] ("m1" ++ ":uncommit_sum") = 6 ∧
        UploadRating_calls ⟨0⟩ (fun _ => 0)
          [⟨.succeed, 1, "m1", 4⟩, ⟨.succeed, 2, "m1", 2⟩] ("m1" ++ ":uncommit_num") = 2) :=
  ⟨⟨rfl, rfl, trivial⟩,
    UploadRating_accumulates ⟨0⟩ [⟨.succeed, 1, "m1", 4⟩, ⟨.succeed, 2, "m1", 2⟩]
      (fun _ => 0) "m1" ⟨rfl, rfl, trivial⟩⟩

/-! ## Properties of `ParseExtraLatency` -/

/-- The character of a digit below ten is a decimal digit of that value. -/
theorem digitChar_value (d : Nat) (h : d < 10) :
    (Nat.digitChar d).toNat - 48 = d ∧ isdigit (Nat.digitChar d) = true := by
  interval_cases d <;> decide

/-- Reading back the digits `Nat.toDigitsCore` writes in front of `ds`. -/
theorem toDigitsCore_value (fuel : Nat) (n : Nat) (ds : List Char) (h : n < fuel) :
    (Nat.toDigitsCore 10 fuel n ds).foldl (fun acc c => 10 * acc + (c.toNat - 48)) 0 =
      ds.foldl (fun acc c => 10 * acc + (c.toNat - 48)) n := by
  induction fuel generalizing n ds with
  | zero => omega
  | succ fuel ih =>
    have hd := (digitChar_value (n % 10) (Nat.mod_lt _ (by decide))).1
    unfold Nat.toDigitsCore
    simp only []
    split
    · rename_i h0
      simp only [List.foldl_cons, hd]
      congr 1
      omega
    · rename_i h0
      rw [ih (n / 10) _ (by omega)]
      simp only [List.foldl_cons, hd]
      congr 1
      omega

theorem toDigitsCore_isdigit (fuel : Nat) (n : Nat) (ds : List Char) :
    ∀ c ∈ Nat.toDigitsCore 10 fuel n ds, isdigit c = true ∨ c ∈ ds := by
  induction fuel generalizing n ds with
  | zero => intro c hc; exact Or.inr hc
  | succ fuel ih =>
    have hd := (digitChar_value (n % 10) (Nat.mod_lt _ (by decide))).2
    intro c hc
    unfold Nat.toDigitsCore at hc
    simp only [] at hc
    split at hc
    · rcases List.mem_cons.1 hc with rfl | h
      · exact Or.inl hd
      · exact Or.inr h
    · rcases ih _ _ c hc with h | h
      · exact Or.inl h
      · rcases List.mem_cons.1 h with rfl | h
        · exact Or.inl hd
        · exact Or.inr h

/-- The decimal text of a natural number is made of decimal digits. -/
theorem toDigits_isdigit (n : Nat) : ∀ c ∈ Nat.toDigits 10 n, isdigit c = true := by
  intro c hc
  rcases toDigitsCore_isdigit (n + 1) n [] c hc with h | h
  · exact h
  · exact absurd h (List.not_mem_nil _)

/-- The decimal text of a natural number is not empty. -/
theorem toDigits_ne_nil (n : Nat) : Nat.toDigits 10 n ≠ [] := by
  unfold Nat.toDigits Nat.toDigitsCore
  simp only []
  split
  · simp
  · intro h
    have := Nat.toDigitsCore_lens_eq 10 n (n / 10) (Nat.digitChar (n % 10)) []
    rw [h] at this
    simp at this

/-- Reading the decimal text of a natural number gives the number back. -/
theorem toDigits_value (n : Nat) :
    (Nat.toDigits 10 n).foldl (fun acc c => 10 * acc + (c.toNat - 48)) 0 = n := by
  unfold Nat.toDigits
  rw [toDigitsCore_value _ _ _ (Nat.lt_succ_self n)]
  rfl

theorem isdigit_not_special (c : Char) (h : isdigit c = true) :
    isspace c = false ∧ c ≠ '-' ∧ c ≠ '+' ∧ c ≠ 's' := by
  unfold isdigit at h
  simp only [Bool.and_eq_true, decide_eq_true_eq] at h
  refine ⟨?_, ?_, ?_, ?_⟩
  · unfold isspace
    simp only [Bool.or_eq_false_iff, Bool.and_eq_false_iff, beq_eq_false_iff_ne,
      decide_eq_false_iff_not]
    omega
  · rintro rfl; revert h; decide
  · rintro rfl; revert h; decide
  · rintro rfl; revert h; decide

/-- `std::stoi` on a non-empty run of digits: its value, or `out_of_range`. -/
theorem stoi_of_digits (l : List Char) (hne : l ≠ [])
    (hall : ∀ c ∈ l, isdigit c = true) :
    stoi l =
      if 2147483647 < ((l.foldl (fun acc c => 10 * acc + (c.toNat - 48)) 0 : Nat) : Int) then
        .error .out_of_range
      else .ok ((l.foldl (fun acc c => 10 * acc + (c.toNat - 48)) 0 : Nat) : Int) := by
  obtain ⟨c, rest, rfl⟩ := List.exists_cons_of_ne_nil hne
  have hc := isdigit_not_special c (hall c (List.mem_cons_self _ _))
  have htw : List.takeWhile isdigit (c :: rest) = c :: rest :=
    List.takeWhile_eq_self_iff.2 hall
  have hneg : stoi_negative (c :: rest) = false := by
    unfold stoi_negative
    split
    · rename_i heq; simp at heq; exact absurd heq.1 hc.2.1
    · rfl
  have hskip : stoi_skip_sign (c :: rest) = c :: rest := by
    unfold stoi_skip_sign
    split
    · rename_i heq; simp at heq; exact absurd heq.1 hc.2.1
    · rename_i heq; simp at heq; exact absurd heq.1 hc.2.2.1
    · rfl
  unfold stoi
  rw [List.dropWhile_cons_of_neg (by simp [hc.1])]
  simp only [hneg, hskip, htw, List.isEmpty_cons, Bool.false_eq_true, if_false]
  have : ¬ (((List.foldl (fun acc c => 10 * acc + (c.toNat - 48)) 0 (c :: rest) : Nat) : Int)
      < -2147483648) := by omega
  simp only [this, false_or]

/-- What `std::stoi` returns for a text that starts with a minus sign is never
positive. -/
theorem stoi_minus (l : List Char) (r : Int) (h : stoi ('-' :: l) = .ok r) : r ≤ 0 := by
  unfold stoi at h
  rw [List.dropWhile_cons_of_neg (by decide)] at h
  simp only [stoi_negative, stoi_skip_sign, if_true] at h
  split at h
  · simp at h
  · split at h
    · simp at h
    · simp only [Except.ok.injEq] at h
      omega

/-- The suffix "ms" is removed. -/
theorem remove_ms_append (l : List Char) : remove_ms (l ++ ['m', 's']) = l := by
  unfold remove_ms
  have h1 : (l ++ ['m', 's']).length - 2 = l.length := by simp
  rw [h1, List.drop_left, List.take_left]
  simp

/-- A text without the letter s is left as it is. -/
theorem remove_ms_of_no_s (l : List Char) (h : ∀ c ∈ l, c ≠ 's') : remove_ms l = l := by
  unfold remove_ms
  split
  · rename_i hc
    have hmem : 's' ∈ l.drop (l.length - 2) := by rw [hc.2]; simp
    exact absurd rfl (h 's' (List.mem_of_mem_drop hmem))
  · rfl

theorem remove_ms_head (c : Char) (rest : List Char) :
    remove_ms (c :: rest) = [] ∨ ∃ rest1, remove_ms (c :: rest) = c :: rest1 := by
  unfold remove_ms
  split
  · cases hn : (c :: rest).length - 2 with
    | zero => left; simp
    | succ n => right; exact ⟨rest.take n, by simp⟩
  · right; exact ⟨rest, rfl⟩

/-- `std::stoi` throws `invalid_argument` on a text whose first character is
neither blank, sign nor digit. -/
theorem stoi_of_not_numeric (c : Char) (rest : List Char) (h1 : isspace c = false)
    (h2 : c ≠ '-') (h3 : c ≠ '+') (h4 : isdigit c = false) :
    stoi (c :: rest) = .error .invalid_argument := by
  have hneg : stoi_negative (c :: rest) = false := by
    unfold stoi_negative
    split
    · rename_i heq; simp at heq; exact absurd heq.1 h2
    · rfl
  have hskip : stoi_skip_sign (c :: rest) = c :: rest := by
    unfold stoi_skip_sign
    split
    · rename_i heq; simp at heq; exact absurd heq.1 h2
    · rename_i heq; simp at heq; exact absurd heq.1 h3
    · rfl
  unfold stoi
  rw [List.dropWhile_cons_of_neg (by simp [h1])]
  simp [hskip, List.takeWhile_cons, h4]

/-- `ParseExtraLatency` on the decimal text of a natural number that fits an
`int`, with and without the suffix. -/
theorem ParseExtraLatency_digits (n : Nat) (h : n ≤ 2147483647) :
    ParseExtraLatency (some (Nat.toDigits 10 n)) = n ∧
      ParseExtraLatency (some (Nat.toDigits 10 n ++ ['m', 's'])) = n := by
  have hs : stoi (Nat.toDigits 10 n) = .ok (n : Int) := by
    rw [stoi_of_digits _ (toDigits_ne_nil n) (toDigits_isdigit n), toDigits_value]
    rw [if_neg (by omega)]
  have hr : remove_ms (Nat.toDigits 10 n) = Nat.toDigits 10 n :=
    remove_ms_of_no_s _ (fun c hc => (isdigit_not_special c (toDigits_isdigit n c hc)).2.2.2)
  unfold ParseExtraLatency
  simp only [hr, remove_ms_append, hs]
  have : ¬ (n : Int) < 0 := by omega
  simp [this]

/-- `ParseExtraLatency` on a text that starts with a minus sign, with and
without the suffix. -/
theorem ParseExtraLatency_minus (l : List Char)
    (hr : remove_ms ('-' :: l) = '-' :: l) :
    ParseExtraLatency (some ('-' :: l)) = 0 ∧
      ParseExtraLatency (some ('-' :: l ++ ['m', 's'])) = 0 := by
  have key : (match stoi ('-' :: l) with
      | .ok latency_ms => if latency_ms < 0 then 0 else latency_ms
      | .error _ => (0 : Int)) = 0 := by
    cases hs : stoi ('-' :: l) with
    | error e => rfl
    | ok r =>
      have := stoi_minus l r hs
      simp only []
      split
      · rfl
      · omega
  unfold ParseExtraLatency
  simp only [hr]
  rw [show '-' :: l ++ ['m', 's'] = ('-' :: l) ++ ['m', 's'] from rfl, remove_ms_append]
  exact ⟨key, key⟩


/-- C12: for every integer `N` with `0 <= N <= 2^31 - 1`, `ParseExtraLatency`
returns `N` when the setting holds the decimal text of `N` and when it holds
that text followed by "ms"; so does the private copy `_ParseExtraLatency` of
each of the four handlers. -/
theorem ParseExtraLatency_decimal (N : Int) (h0 : 0 ≤ N) (h1 : N ≤ 2147483647) :
    (ParseExtraLatency (some (to_string N)) = N ∧
        ParseExtraLatency (some (to_string N ++ ['m', 's'])) = N) ∧
      (PageHandler._ParseExtraLatency (some (to_string N)) = N ∧
        PageHandler._ParseExtraLatency (some (to_string N ++ ['m', 's'])) = N) ∧
      (RatingHandler._ParseExtraLatency (some (to_string N)) = N ∧
        RatingHandler._ParseExtraLatency (some (to_string N ++ ['m', 's'])) = N) ∧
      (TextHandler._ParseExtraLatency (some (to_string N)) = N ∧
        TextHandler._ParseExtraLatency (some (to_string N ++ ['m', 's'])) = N) ∧
      (UserReviewHandler._ParseExtraLatency (some (to_string N)) = N ∧
        UserReviewHandler._ParseExtraLatency (some (to_string N ++ ['m', 's'])) = N) := by
  have ht : to_string N = Nat.toDigits 10 N.toNat := by
    unfold to_string
    rw [if_neg (by omega)]
  have key := ParseExtraLatency_digits N.toNat (by omega)
  rw [← ht] at key
  have hN : ((N.toNat : Nat) : Int) = N := Int.toNat_of_nonneg h0
  rw [hN] at key
  exact ⟨key, key, key, key, key⟩

/-- Witness of C12 at `N = 100`: the settings "100" and "100ms" both give 100. -/
theorem ParseExtraLatency_decimal_witness :
    (0 : Int) ≤ 100 ∧ (100 : Int) ≤ 2147483647 ∧
      to_string 100 = ['1', '0', '0'] ∧
      ((ParseExtraLatency (some (to_string 100)) = 100 ∧
          ParseExtraLatency (some (to_string 100 ++ ['m', 's'])) = 100) ∧
        (PageHandler._ParseExtraLatency (some (to_string 100)) = 100 ∧
          PageHandler._ParseExtraLatency (some (to_string 100 ++ ['m', 's'])) = 100) ∧
        (RatingHandler._ParseExtraLatency (some (to_string 100)) = 100 ∧
          RatingHandler._ParseExtraLatency (some (to_string 100 ++ ['m', 's'])) = 100) ∧
        (TextHandler._ParseExtraLatency (some (to_string 100)) = 100 ∧
          TextHandler._ParseExtraLatency (some (to_string 100 ++ ['m', 's'])) = 100) ∧
        (UserReviewHandler._ParseExtraLatency (some (to_string 100)) = 100 ∧
          UserReviewHandler._ParseExtraLatency (some (to_string 100 ++ ['m', 's'])) = 100)) :=
  ⟨by decide, by decide, by decide, ParseExtraLatency_decimal 100 (by decide) (by decide)⟩

/-- C13 (counterexample): a setting that is not a decimal integer optionally
followed by "ms" does not always give 0. For the text "12abc" `std::stoi` reads
the leading 12 and ignores the rest, and `ParseExtraLatency` returns 12; for
"12.5ms" it returns 12 as well. -/
theorem ParseExtraLatency_trailing_text :
    ParseExtraLatency (some ['1', '2', 'a', 'b', 'c']) = 12 ∧
      ParseExtraLatency (some ['1', '2', '.', '5', 'm', 's']) = 12 ∧
      PageHandler._ParseExtraLatency (some ['1', '2', 'a', 'b', 'c']) = 12 ∧
      (12 : Int) ≠ 0 := by
  decide

/-- C13 (amended): `ParseExtraLatency` returns 0 when the setting is missing,
when it holds the decimal text of a negative integer, with or without the
suffix "ms", when it is empty, when its first character is neither blank, sign
nor digit, and in general whenever `std::stoi` rejects the text left once the
suffix "ms" is removed; its result is never negative. The private copy of
`PageHandler` is the same function. -/
theorem ParseExtraLatency_zero :
    ParseExtraLatency none = 0 ∧
      (∀ extra_latency_env, 0 ≤ ParseExtraLatency extra_latency_env) ∧
      (∀ n : Int, n < 0 →
        ParseExtraLatency (some (to_string n)) = 0 ∧
          ParseExtraLatency (some (to_string n ++ ['m', 's'])) = 0) ∧
      ParseExtraLatency (some []) = 0 ∧
      (∀ c rest, isspace c = false → c ≠ '-' → c ≠ '+' → isdigit c = false →
        ParseExtraLatency (some (c :: rest)) = 0) ∧
      (∀ latency_str e, stoi (remove_ms latency_str) = .error e →
        ParseExtraLatency (some latency_str) = 0) ∧
      PageHandler._ParseExtraLatency = ParseExtraLatency := by
  have hgen : ∀ latency_str e, stoi (remove_ms latency_str) = .error e →
      ParseExtraLatency (some latency_str) = 0 := by
    intro latency_str e he
    unfold ParseExtraLatency
    simp only [he]
  refine ⟨rfl, ?_, ?_, by decide, ?_, hgen, rfl⟩
  · intro extra_latency_env
    unfold ParseExtraLatency
    split
    · exact le_refl 0
    · split
      · split
        · exact le_refl 0
        · omega
      · exact le_refl 0
  · intro n hn
    have ht : to_string n = '-' :: Nat.toDigits 10 (-n).toNat := by
      unfold to_string
      rw [if_pos hn]
    rw [ht]
    apply ParseExtraLatency_minus
    apply remove_ms_of_no_s
    intro c hc
    rcases List.mem_cons.1 hc with rfl | hc
    · decide
    · exact (isdigit_not_special c (toDigits_isdigit _ c hc)).2.2.2
  · intro c rest h1 h2 h3 h4
    rcases remove_ms_head c rest with h | ⟨rest1, h⟩
    · exact hgen _ .invalid_argument (by rw [h]; rfl)
    · exact hgen _ .invalid_argument (by rw [h]; exact stoi_of_not_numeric c rest1 h1 h2 h3 h4)

/-! ## The injected latency -/

/-- A pooled remote call applies no delay. -/
theorem pooled_call_no_sleep {α : Type} (pool : Pool) (client_wrapper : Bool)
    (message : String) (call : Event) (answer : Except Exn α) (hc : call.isSleep = false) :
    ∀ ev ∈ (pooled_call pool client_wrapper message call answer).2, ev.isSleep = false := by
  intro ev hev
  rcases pooled_call_trace pool client_wrapper message call answer ev hev with
    rfl | rfl | rfl | rfl
  · rfl
  · rfl
  · exact hc
  · rfl

/-- No `ReadPage` call applies a delay, whatever delay the handler holds. -/
theorem ReadPage_no_sleep (h : PageHandler) (env : ReadPageEnv) (req_id : Int)
    (movie_id : String) (review_start review_stop : Int) :
    ∀ ev ∈ (ReadPage h env req_id movie_id review_start review_stop).trace,
      ev.isSleep = false := by
  have a : ∀ ev ∈ (movie_info_future env req_id movie_id).2, ev.isSleep = false :=
    pooled_call_no_sleep _ _ _ _ _ rfl
  have b : ∀ ev ∈ (movie_review_future env req_id movie_id review_start review_stop).2,
      ev.isSleep = false := pooled_call_no_sleep _ _ _ _ _ rfl
  have c : ∀ mi, ∀ ev ∈ (cast_info_future env req_id mi).2, ev.isSleep = false :=
    fun mi => pooled_call_no_sleep _ _ _ _ _ rfl
  have d : ∀ mi, ∀ ev ∈ (plot_future env req_id mi).2, ev.isSleep = false :=
    fun mi => pooled_call_no_sleep _ _ _ _ _ rfl
  intro ev hev
  unfold ReadPage at hev
  simp only [] at hev
  split at hev
  · rcases List.mem_append.1 hev with h1 | h1
    · exact a ev h1
    · exact b ev h1
  · rename_i mi _
    have e : ev ∈ (movie_info_future env req_id movie_id).2 ++
        (movie_review_future env req_id movie_id review_start review_stop).2 ++
        (cast_info_future env req_id mi).2 ++ (plot_future env req_id mi).2 →
        ev.isSleep = false := by
      intro h1
      simp only [List.mem_append] at h1
      rcases h1 with ((h1 | h1) | h1) | h1
      · exact a ev h1
      · exact b ev h1
      · exact c mi ev h1
      · exact d mi ev h1
    split at hev
    · exact e hev
    · split at hev
      · exact e hev
      · split at hev <;> exact e hev

theorem ReadUserReviews_mongodb_no_sleep (env : ReadUserReviewsEnv)
    (mongodb : Int → Option (List ReviewsElem)) (user_id start stop : Int)
    (review_ids : List Int) :
    ∀ ev ∈ (ReadUserReviews_mongodb env mongodb user_id start stop review_ids).2,
      ev.isSleep = false := by
  unfold ReadUserReviews_mongodb
  split
  · simp [Event.isSleep]
  · split <;> simp [Event.isSleep]

theorem ReadUserReviews_fill_no_sleep (env : ReadUserReviewsEnv) (st : UserReviewState)
    (user_id start stop : Int) (review_ids : List Int) :
    ∀ ev ∈ (ReadUserReviews_fill env st user_id start stop review_ids).2,
      ev.isSleep = false := by
  unfold ReadUserReviews_fill
  simp only []
  split
  · exact ReadUserReviews_mongodb_no_sleep _ _ _ _ _ _
  · simp

theorem ReadUserReviews_join_no_sleep (env : ReadUserReviewsEnv) (st : UserReviewState)
    (req_id user_id : Int) (review_ids : List Int) (redis_update_map : List (Int × Int)) :
    ∀ ev ∈ (ReadUserReviews_join env st req_id user_id review_ids redis_update_map).trace,
      ev.isSleep = false := by
  have hf : ∀ ev ∈ (ReadUserReviews_review_future env req_id review_ids).2,
      ev.isSleep = false := by
    unfold ReadUserReviews_review_future
    split <;> simp [Event.isSleep]
  unfold ReadUserReviews_join
  simp only []
  split
  · exact hf
  · split
    · exact List.forall_mem_append.2 ⟨hf, by simp [Event.isSleep]⟩
    · split
      · exact List.forall_mem_append.2 ⟨hf, by simp [Event.isSleep]⟩
      · split
        · exact List.forall_mem_append.2 ⟨hf, by simp [Event.isSleep]⟩
        · split <;> exact List.forall_mem_append.2 ⟨hf, by simp [Event.isSleep]⟩

/-- No `ReadUserReviews` call applies a delay. -/
theorem ReadUserReviews_no_sleep (env : ReadUserReviewsEnv) (st : UserReviewState)
    (req_id user_id start stop : Int) :
    ∀ ev ∈ (ReadUserReviews env st req_id user_id start stop).trace, ev.isSleep = false := by
  have hfill := ReadUserReviews_fill_no_sleep env st user_id start stop
    (zrevrange (st.redis user_id) start (stop - 1))
  unfold ReadUserReviews
  split
  · simp
  split
  · simp [Event.isSleep]
  split
  · simp [Event.isSleep]
  split
  · simp [Event.isSleep]
  simp only []
  split
  · exact List.forall_mem_append.2 ⟨by simp [Event.isSleep], hfill⟩
  · have hj := ReadUserReviews_join_no_sleep env st req_id user_id
    exact List.forall_mem_append.2
      ⟨List.forall_mem_append.2 ⟨by simp [Event.isSleep], hfill⟩, hj _ _⟩

theorem UploadUserReview_mongodb_no_sleep (env : UploadUserReviewEnv)
    (mongodb : Int → Option (List ReviewsElem)) (user_id review_id timestamp : Int) :
    (UploadUserReview_mongodb env mongodb user_id review_id timestamp).2.isSleep = false := by
  unfold UploadUserReview_mongodb
  split
  · split <;> rfl
  · split <;> rfl

/-- `UploadUserReview` applies the delay of the handler first when it is positive,
and no delay anywhere else. -/
theorem UploadUserReview_latency (h : UserReviewHandler) (env : UploadUserReviewEnv)
    (st : UserReviewState) (req_id user_id review_id timestamp : Int) :
    ∃ rest, (UploadUserReview h env st req_id user_id review_id timestamp).trace =
        (if h.extra_latency_ms > 0 then [Event.sleep_for h.extra_latency_ms] else []) ++ rest ∧
      ∀ ev ∈ rest, ev.isSleep = false := by
  have hm := UploadUserReview_mongodb_no_sleep env st.mongodb user_id review_id timestamp
  unfold Event.isSleep at hm
  unfold UploadUserReview
  simp only []
  split
  · exact ⟨_, rfl, by simp [Event.isSleep]⟩
  split
  · exact ⟨_, rfl, by simp [Event.isSleep]⟩
  split
  · simp only [List.append_assoc]
    exact ⟨_, rfl, by simp [Event.isSleep, hm]⟩
  split
  · simp only [List.append_assoc]
    exact ⟨_, rfl, by simp [Event.isSleep, hm]⟩
  split
  · simp only [List.append_assoc]
    exact ⟨_, rfl, by simp [Event.isSleep, hm]⟩
  · simp only [List.append_assoc]
    exact ⟨_, rfl, by simp [Event.isSleep, hm]⟩

/-- `UploadRating` applies the delay of the handler first when it is positive, and
no delay anywhere else. -/
theorem UploadRating_latency (h : RatingHandler) (env : UploadRatingEnv)
    (redis : String → Int) (req_id : Int) (movie_id : String) (rating : Int) :
    ∃ rest, (UploadRating h env redis req_id movie_id rating).trace =
        (if h.extra_latency_ms > 0 then [Event.sleep_for h.extra_latency_ms] else []) ++ rest ∧
      ∀ ev ∈ rest, ev.isSleep = false := by
  have hu := pooled_call_no_sleep Pool.compose_client_pool env.compose_client_wrapper
    "Failed to connected to compose-review-service" (Event.UploadRating req_id rating)
    (env.UploadRating req_id rating) rfl
  have hr : ∀ ev ∈ (UploadRating_redis_future env redis movie_id rating).2.1,
      ev.isSleep = false := by
    unfold UploadRating_redis_future
    split
    · simp [Event.isSleep]
    · split <;> simp [Event.isSleep]
  have key := List.forall_mem_append.2 ⟨hu, hr⟩
  unfold UploadRating
  simp only [List.append_assoc]
  split
  · exact ⟨_, rfl, key⟩
  · split <;> exact ⟨_, rfl, key⟩

/-- `UploadText` applies the delay of the handler first when it is positive, and
no delay anywhere else. -/
theorem UploadText_latency (h : TextHandler) (env : UploadTextEnv) (req_id : Int)
    (text : String) :
    ∃ rest, (UploadText h env req_id text).trace =
        (if h.extra_latency_ms > 0 then [Event.sleep_for h.extra_latency_ms] else []) ++ rest ∧
      ∀ ev ∈ rest, ev.isSleep = false :=
  ⟨_, rfl, pooled_call_no_sleep _ _ _ _ _ rfl⟩

/-- C14 (code defect): `ReadPage` and `ReadUserReviews` apply no delay when the
delay configured at construction is positive. With a delay of 100 ms, the first
operation of `ReadPage` is the acquisition of the movie-info client and the
first operation of `ReadUserReviews` the acquisition of the cache connection,
and no operation of either call is a delay; `UploadUserReview` of the same
handler starts with the delay of 100 ms. -/
theorem ReadPage_ReadUserReviews_skip_latency :
    (∀ ev ∈ (ReadPage ⟨100⟩ .succeed 1 "m1" 0 10).trace, ev.isSleep = false) ∧
      (ReadPage ⟨100⟩ .succeed 1 "m1" 0 10).trace.head? =
        some (.Pop .movie_info_client_pool true) ∧
      (∀ ev ∈ (ReadUserReviews .succeed
          (after_uploads ⟨100⟩ .succeed 7 .empty [(100, 10)]) 1 7 0 1).trace,
        ev.isSleep = false) ∧
      (ReadUserReviews .succeed
          (after_uploads ⟨100⟩ .succeed 7 .empty [(100, 10)]) 1 7 0 1).trace.head? =
        some (.Pop .memcached_client_pool true) ∧
      (UploadUserReview ⟨100⟩ .succeed .empty 1 7 100 10).trace.head? =
        some (.sleep_for 100) := by
  refine ⟨by decide, rfl, by decide, rfl, rfl⟩

/-! ## Failures of `UploadUserReview` -/

/-- When the durable-store step of `UploadUserReview` succeeds, the new entry is
at the head of the user's list and the other documents are as they were. -/
theorem UploadUserReview_mongodb_ok (env : UploadUserReviewEnv)
    (mongodb mongodb1 : Int → Option (List ReviewsElem)) (user_id review_id timestamp : Int)
    (h : (UploadUserReview_mongodb env mongodb user_id review_id timestamp).1 = .ok mongodb1) :
    mongodb1 user_id = some (.review review_id timestamp :: (mongodb user_id).getD []) ∧
      ∀ u, u ≠ user_id → mongodb1 u = mongodb u := by
  unfold UploadUserReview_mongodb at h
  cases hd : mongodb user_id with
  | none =>
    simp only [hd] at h
    cases hi : env.insert_error with
    | some m => simp [hi] at h
    | none =>
      simp only [hi, Except.ok.injEq] at h
      subst h
      refine ⟨by simp, ?_⟩
      intro u hu
      simp [hu]
  | some reviews =>
    simp only [hd] at h
    cases hi : env.update_error with
    | some m => simp [hi] at h
    | none =>
      simp only [hi, Except.ok.injEq] at h
      subst h
      refine ⟨by simp, ?_⟩
      intro u hu
      simp [hu]

/-- C15 (counterexample): a failing cache step does not always give the error
kind `SE_REDIS_ERROR`. When `sync_commit()` throws, `UploadUserReview` for
user 8 fails with the exception of the cache client, which is no
`ServiceException`; the durable store holds the new entry and the cache does
not. -/
theorem UploadUserReview_cache_error_kind :
    (UploadUserReview ⟨0⟩ .commit_throws .empty 1 8 200 10).result =
        .error (.other "cpp_redis::redis_error") ∧
      Exn.other "cpp_redis::redis_error" ≠
        .ServiceException .SE_REDIS_ERROR "Cannot connected to Redis server" ∧
      (UploadUserReview ⟨0⟩ .commit_throws .empty 1 8 200 10).state.mongodb 8 =
        some [.review 200 10] ∧
      (UploadUserReview ⟨0⟩ .commit_throws .empty 1 8 200 10).state.redis 8 = [] := by
  refine ⟨rfl, by decide, rfl, rfl⟩

/-- C15 (amended): `UploadUserReview` fails with `SE_MONGODB_ERROR` when its
durable-store step fails (no client, no collection, or the insert / update
fails), and then both tiers are as before the call. When the durable-store step
succeeded it fails with `SE_REDIS_ERROR` when the cache pool yields no
connection, and with the exception of the cache client, as it is, when the cache
write throws. Nothing is rolled back: after such a failure the durable list
holds the new entry at its head and the cache is as before the call, so the
durable store is ahead of the cache and never the cache ahead of the store. -/
theorem UploadUserReview_failure (h : UserReviewHandler) (env : UploadUserReviewEnv)
    (st : UserReviewState) (req_id user_id review_id timestamp : Int) :
    (env.mongodb_client = false →
        (UploadUserReview h env st req_id user_id review_id timestamp).result =
          .error (.ServiceException .SE_MONGODB_ERROR
            "Failed to pop a client from MongoDB pool") ∧
        (UploadUserReview h env st req_id user_id review_id timestamp).state = st) ∧
      (env.mongodb_client = true → env.collection = false →
        (UploadUserReview h env st req_id user_id review_id timestamp).result =
          .error (.ServiceException .SE_MONGODB_ERROR
            "Failed to create collection user-review from DB user-review") ∧
        (UploadUserReview h env st req_id user_id review_id timestamp).state = st) ∧
      (env.mongodb_client = true → env.collection = true → ∀ message,
        (UploadUserReview_mongodb env st.mongodb user_id review_id timestamp).1 =
          .error message →
        (UploadUserReview h env st req_id user_id review_id timestamp).result =
          .error (.ServiceException .SE_MONGODB_ERROR message) ∧
        (UploadUserReview h env st req_id user_id review_id timestamp).state = st) ∧
      (env.mongodb_client = true → env.collection = true → ∀ mongodb1,
        (UploadUserReview_mongodb env st.mongodb user_id review_id timestamp).1 =
          .ok mongodb1 →
        (env.redis_client_wrapper = false →
          (UploadUserReview h env st req_id user_id review_id timestamp).result =
            .error (.ServiceException .SE_REDIS_ERROR "Cannot connected to Redis server")) ∧
        (env.redis_client_wrapper = true → ∀ e, env.sync_commit = some e →
          (UploadUserReview h env st req_id user_id review_id timestamp).result = .error e) ∧
        (∀ e, (UploadUserReview h env st req_id user_id review_id timestamp).result =
            .error e →
          (UploadUserReview h env st req_id user_id review_id timestamp).state.redis =
            st.redis ∧
          (UploadUserReview h env st req_id user_id review_id timestamp).state.mongodb user_id =
            some (.review review_id timestamp :: (st.mongodb user_id).getD []) ∧
          ∀ u, u ≠ user_id →
            (UploadUserReview h env st req_id user_id review_id timestamp).state.mongodb u =
              st.mongodb u)) := by
  refine ⟨?_, ?_, ?_, ?_⟩
  · intro h1
    unfold UploadUserReview
    simp [h1]
  · intro h1 h2
    unfold UploadUserReview
    simp [h1, h2]
  · intro h1 h2 message hm
    unfold UploadUserReview
    simp [h1, h2, hm]
  · intro h1 h2 mongodb1 hm
    have hst := UploadUserReview_mongodb_ok env st.mongodb mongodb1 user_id review_id
      timestamp hm
    refine ⟨?_, ?_, ?_⟩
    · intro h3
      unfold UploadUserReview
      simp [h1, h2, hm, h3]
    · intro h3 e h4
      unfold UploadUserReview
      simp [h1, h2, hm, h3, h4]
    · intro e he
      unfold UploadUserReview at he ⊢
      simp only [h1, h2, hm, Bool.not_true, Bool.false_eq_true, if_false] at he ⊢
      cases h3 : env.redis_client_wrapper
      · simp only [h3, Bool.not_false, if_true]
        exact ⟨trivial, hst⟩
      · simp only [h3, Bool.not_true, Bool.false_eq_true, if_false] at he ⊢
        cases h4 : env.sync_commit with
        | some e1 =>
          simp only [h4]
          exact ⟨trivial, hst⟩
        | none => simp [h4] at he

/-! ## The id list of `ReadUserReviews` against its specification -/

/-- What the code builds when it falls back to the durable store: the ids of the
cache followed by the ids of the durable entries at the indices `start`, ...,
`stop - 1`. -/
theorem ReadUserReviews_review_ids_fallback (st : UserReviewState)
    (user_id start stop : Int)
    (hfb : start + ((zrevrange (st.redis user_id) start (stop - 1)).length : Int) < stop) :
    (ReadUserReviews_review_ids st user_id start stop).1 =
      zrevrange (st.redis user_id) start (stop - 1) ++
        (review_pairs
          ((((st.mongodb user_id).getD []).take stop.toNat).drop start.toNat)).map Prod.snd := by
  unfold ReadUserReviews_review_ids
  simp only []
  rw [if_pos hfb]
  cases hdoc : st.mongodb user_id with
  | none => simp [review_pairs]
  | some elems =>
    simp only [Option.getD_some]
    rw [ReadUserReviews_loop_eq]
    simp

/-- When the cache returns no id, the list the code builds is the list of the
specification. -/
theorem ReadUserReviews_review_ids_no_hit (st : UserReviewState)
    (user_id start stop : Int) (h1 : start < stop)
    (hk : zrevrange (st.redis user_id) start (stop - 1) = []) :
    (ReadUserReviews_review_ids st user_id start stop).1 =
      ReadUserReviews_review_ids_spec st user_id start stop := by
  rw [ReadUserReviews_review_ids_fallback st user_id start stop (by rw [hk]; simpa using h1)]
  unfold ReadUserReviews_review_ids_spec
  simp only [hk]
  rw [if_pos (by simpa using h1)]
  simp

/-- C16 (code defect): the durable entries are appended from index `start`, not
from index `start + k`. User 7 has the reviews 100, 101, 102 (timestamps 10, 20,
30) in both tiers. The read of the window `[1, 4)` gets the `k = 2` ids
`[101, 100]` from the cache and should add the durable entries at the indices
3, ..., 3, of which there is none; the code adds those at the indices 1 and 2
and hands over `[101, 100, 101, 100]`. -/
theorem ReadUserReviews_fill_from_start :
    (after_uploads ⟨0⟩ .succeed 7 .empty [(100, 10), (101, 20), (102, 30)]).mongodb 7 =
        some [.review 102 30, .review 101 20, .review 100 10] ∧
      zrevrange ((after_uploads ⟨0⟩ .succeed 7 .empty
        [(100, 10), (101, 20), (102, 30)]).redis 7) 1 (4 - 1) = [101, 100] ∧
      Event.ReadReviews 1 [101, 100, 101, 100] ∈
        (ReadUserReviews .succeed
          (after_uploads ⟨0⟩ .succeed 7 .empty [(100, 10), (101, 20), (102, 30)])
          1 7 1 4).trace ∧
      ReadUserReviews_review_ids_spec
        (after_uploads ⟨0⟩ .succeed 7 .empty [(100, 10), (101, 20), (102, 30)]) 7 1 4 =
          [101, 100] := by
  refine ⟨rfl, by decide, by decide, by decide⟩

/-! ## The cache rebuild of `ReadUserReviews` -/

/-- Insertion at rank adds the element and nothing else. -/
theorem zinsert_perm (e : ZEntry) (l : List ZEntry) : (zinsert e l).Perm (e :: l) := by
  induction l with
  | nil => simp [zinsert]
  | cons x rest ih =>
    unfold zinsert
    split
    · exact List.Perm.refl _
    · exact (List.Perm.cons x ih).trans (List.Perm.swap e x rest)

/-- Adding a pair whose member is not in the set adds that pair and nothing
else. -/
theorem zadd1_perm (zs : List ZEntry) (score member : Int)
    (h : member ∉ zs.map ZEntry.member) :
    (zadd1 zs score member).Perm (⟨score, member⟩ :: zs) := by
  unfold zadd1
  have : zs.filter (fun x => decide (x.member ≠ member)) = zs := by
    rw [List.filter_eq_self]
    intro a ha
    have : a.member ≠ member := fun e => h (e ▸ List.mem_map_of_mem _ ha)
    simpa using this
  rw [this]
  exact zinsert_perm _ _

/-- Adding pairs with pairwise distinct members, none of them in the set, gives
the set of those pairs and of the earlier elements. -/
theorem zadd_perm (score_members : List (Int × Int)) (zs : List ZEntry)
    (hn : (score_members.map Prod.snd).Nodup)
    (hd : ∀ x ∈ score_members.map Prod.snd, x ∉ zs.map ZEntry.member) :
    (zadd zs score_members).Perm
      ((score_members.map (fun p => (⟨p.1, p.2⟩ : ZEntry))) ++ zs) := by
  unfold zadd
  induction score_members generalizing zs with
  | nil => simp
  | cons p rest ih =>
    simp only [List.map_cons, List.nodup_cons] at hn
    simp only [List.foldl_cons, List.map_cons]
    have h1 : p.2 ∉ zs.map ZEntry.member := hd p.2 (by simp)
    have h2 : ∀ x ∈ rest.map Prod.snd, x ∉ (zadd1 zs p.1 p.2).map ZEntry.member := by
      intro x hx hmem
      rcases (mem_zadd1 zs p.1 p.2 x).1 hmem with rfl | h'
      · exact hn.1 hx
      · exact hd x (by simp [hx]) h'
    refine (ih _ hn.2 h2).trans ?_
    refine (List.Perm.append_left _ (zadd1_perm zs p.1 p.2 h1)).trans ?_
    simp

/-- C17 (counterexample): after a rebuild the cached set need not hold every
pair of the slice. Review 100 is uploaded for user 7 with timestamp 9 and again
with timestamp 10: the durable list holds both pairs. The read of `[0, 3)` reads
that slice and sends both pairs to the cache, in the order of their texts "10"
and "9"; an ordered set keeps one score per member, so the rebuilt set holds the
pair (9, 100) alone and the pair (10, 100) of the slice is not in it. -/
theorem ReadUserReviews_rebuild_keeps_one_pair_per_id :
    (after_uploads ⟨0⟩ .succeed 7 .empty [(100, 9), (100, 10)]).mongodb 7 =
        some [.review 100 10, .review 100 9] ∧
      (after_uploads ⟨0⟩ .succeed 7 .empty [(100, 9), (100, 10)]).redis 7 = [⟨10, 100⟩] ∧
      Event.mongoc_collection_find_with_opts 7 (some 3) ∈
        (ReadUserReviews .succeed
          (after_uploads ⟨0⟩ .succeed 7 .empty [(100, 9), (100, 10)]) 1 7 0 3).trace ∧
      Event.zadd 7 [(10, 100), (9, 100)] ∈
        (ReadUserReviews .succeed
          (after_uploads ⟨0⟩ .succeed 7 .empty [(100, 9), (100, 10)]) 1 7 0 3).trace ∧
      (ReadUserReviews .succeed
          (after_uploads ⟨0⟩ .succeed 7 .empty [(100, 9), (100, 10)]) 1 7 0 3).state.redis 7 =
        [⟨9, 100⟩] ∧
      (⟨10, 100⟩ : ZEntry) ∉
        (ReadUserReviews .succeed
          (after_uploads ⟨0⟩ .succeed 7 .empty [(100, 9), (100, 10)]) 1 7 0 3).state.redis 7 := by
  refine ⟨rfl, rfl, by decide, by decide, rfl, by decide⟩

/-- C17 (amended): for `0 <= start < stop`, when a successful `ReadUserReviews`
found the cache shorter than the window and read a durable-store slice that
holds at least one review, the review ids of the slice being pairwise distinct,
the cache of the user is overwritten: afterwards the cached set holds exactly
the `(timestamp, review id)` pairs of the slice, that is of the first `stop`
entries of the durable list and not only of the requested window, in
reverse-range order, and nothing of its earlier contents; the cached sets of the
other users and the durable store are as before. -/
theorem ReadUserReviews_rebuilds_cache (env : ReadUserReviewsEnv) (st : UserReviewState)
    (req_id user_id start stop : Int) (reviews : List Review) (elems : List ReviewsElem)
    (h0 : 0 ≤ start) (h1 : start < stop)
    (hfb : start + ((zrevrange (st.redis user_id) start (stop - 1)).length : Int) < stop)
    (hok : (ReadUserReviews env st req_id user_id start stop).result = .ok reviews)
    (hdoc : st.mongodb user_id = some elems)
    (hne : review_pairs (elems.take stop.toNat) ≠ [])
    (hnd : ((review_pairs (elems.take stop.toNat)).map Prod.snd).Nodup) :
    ((ReadUserReviews env st req_id user_id start stop).state.redis user_id).Perm
        ((review_pairs (elems.take stop.toNat)).map (fun p => (⟨p.1, p.2⟩ : ZEntry))) ∧
      zsorted ((ReadUserReviews env st req_id user_id start stop).state.redis user_id) ∧
      (∀ k, k ≠ user_id →
        (ReadUserReviews env st req_id user_id start stop).state.redis k = st.redis k) ∧
      (ReadUserReviews env st req_id user_id start stop).state.mongodb = st.mongodb := by
  have hv : ¬ (stop ≤ start ∨ start < 0) := by omega
  have hres := (ReadUserReviews_result_ok env st req_id user_id start stop reviews hv hok).2.2
  have hmap : (ReadUserReviews_review_ids st user_id start stop).2 =
      (review_pairs (elems.take stop.toNat)).foldl (fun m p => multimap_insert p m) [] := by
    unfold ReadUserReviews_review_ids
    simp only []
    rw [if_pos hfb]
    simp only [hdoc]
    rw [ReadUserReviews_loop_eq]
  have hperm := multimap_fold_perm (review_pairs (elems.take stop.toNat)) []
  rw [← hmap, List.append_nil] at hperm
  have hmnd : ((ReadUserReviews_review_ids st user_id start stop).2.map Prod.snd).Nodup :=
    (List.Perm.nodup_iff (hperm.map Prod.snd)).2 hnd
  have hnemp : (ReadUserReviews_review_ids st user_id start stop).2.isEmpty = false := by
    cases hm : (ReadUserReviews_review_ids st user_id start stop).2 with
    | nil =>
      rw [hm] at hperm
      exact absurd (List.Perm.nil_eq hperm).symm hne
    | cons a l => rfl
  rw [hnemp] at hres
  simp only [Bool.false_eq_true, if_false] at hres
  rw [hres]
  refine ⟨?_, ?_, ?_, rfl⟩
  · simp only [UserReviewState.set_redis, if_true]
    have := zadd_perm _ [] hmnd (by simp)
    rw [List.append_nil] at this
    exact this.trans (hperm.map _)
  · simp only [UserReviewState.set_redis, if_true]
    exact zsorted_zadd _ _ List.Pairwise.nil
  · intro k hk
    simp [UserReviewState.set_redis, hk]

/-- Witness of C17 (amended): user 7 has two reviews in the durable store and a
cold cache; the read of the window `[1, 2)` hands over the one id of the window
and rebuilds the cache with both pairs of the slice. -/
theorem ReadUserReviews_rebuilds_cache_witness :
    (0 : Int) ≤ 1 ∧ (1 : Int) < 2 ∧
      (after_uploads ⟨0⟩ .cache_down 7 .empty [(100, 10), (101, 5)]).mongodb 7 =
        some [.review 101 5, .review 100 10] ∧
      Event.ReadReviews 1 [100] ∈
        (ReadUserReviews .succeed
          (after_uploads ⟨0⟩ .cache_down 7 .empty [(100, 10), (101, 5)]) 1 7 1 2).trace ∧
      (ReadUserReviews .succeed
          (after_uploads ⟨0⟩ .cache_down 7 .empty [(100, 10), (101, 5)]) 1 7 1 2).state.redis 7 =
        [⟨10, 100⟩, ⟨5, 101⟩] ∧
      (((ReadUserReviews .succeed
            (after_uploads ⟨0⟩ .cache_down 7 .empty [(100, 10), (101, 5)])
            1 7 1 2).state.redis 7).Perm
          ((review_pairs (([.review 101 5, .review 100 10] : List ReviewsElem).take
            (2 : Int).toNat)).map (fun p => (⟨p.1, p.2⟩ : ZEntry))) ∧
        zsorted ((ReadUserReviews .succeed
          (after_uploads ⟨0⟩ .cache_down 7 .empty [(100, 10), (101, 5)])
          1 7 1 2).state.redis 7) ∧
        (∀ k, k ≠ 7 →
          (ReadUserReviews .succeed
            (after_uploads ⟨0⟩ .cache_down 7 .empty [(100, 10), (101, 5)])
            1 7 1 2).state.redis k =
          (after_uploads ⟨0⟩ .cache_down 7 .empty [(100, 10), (101, 5)]).redis k) ∧
        (ReadUserReviews .succeed
            (after_uploads ⟨0⟩ .cache_down 7 .empty [(100, 10), (101, 5)])
            1 7 1 2).state.mongodb =
          (after_uploads ⟨0⟩ .cache_down 7 .empty [(100, 10), (101, 5)]).mongodb) :=
  ⟨by decide, by decide, rfl, by decide, rfl,
    ReadUserReviews_rebuilds_cache .succeed
      (after_uploads ⟨0⟩ .cache_down 7 .empty [(100, 10), (101, 5)]) 1 7 1 2
      [⟨100, ""⟩] [.review 101 5, .review 100 10]
      (by decide) (by decide) (by decide) rfl rfl (by decide) (by decide)⟩

/-! ## The join policy of `ReadUserReviews` -/

/-- Once the cache has answered and the durable-store fallback, if any, has run
without failure, the result of `ReadUserReviews` is that of its last part. -/
theorem ReadUserReviews_result_eq_join (env : ReadUserReviewsEnv) (st : UserReviewState)
    (req_id user_id start stop : Int) (p : List Int × List (Int × Int))
    (h0 : 0 ≤ start) (h1 : start < stop)
    (hw : env.redis_client_wrapper = true) (hc : env.commit = none)
    (hf : env.review_ids_future = none)
    (hfill : (ReadUserReviews_fill env st user_id start stop
      (zrevrange (st.redis user_id) start (stop - 1))).1 = .ok p) :
    (ReadUserReviews env st req_id user_id start stop).result =
      (ReadUserReviews_join env st req_id user_id p.1 p.2).result := by
  have hv : ¬ (stop ≤ start ∨ start < 0) := by omega
  unfold ReadUserReviews
  rw [if_neg hv]
  simp only [hw, Bool.not_true, Bool.false_eq_true, if_false, hc, hf, hfill]

/-- The join policy, stated on the last part of `ReadUserReviews`. -/
theorem ReadUserReviews_join_policy_stage (env : ReadUserReviewsEnv) (st : UserReviewState)
    (req_id user_id : Int) (review_ids : List Int) (redis_update_map : List (Int × Int)) :
    ((redis_update_map.isEmpty = true ∨
          (env.redis_client_wrapper_update = true ∧ env.update_commit = none)) →
        (∀ e, (ReadUserReviews_review_future env req_id review_ids).1 = .error e →
          (ReadUserReviews_join env st req_id user_id review_ids redis_update_map).result =
            .error e) ∧
        (∀ reviews e, (ReadUserReviews_review_future env req_id review_ids).1 = .ok reviews →
          redis_update_map.isEmpty = false → env.zadd_reply_future = some e →
          (ReadUserReviews_join env st req_id user_id review_ids redis_update_map).result =
            .error e) ∧
        (∀ reviews, (ReadUserReviews_review_future env req_id review_ids).1 = .ok reviews →
          (redis_update_map.isEmpty = true ∨ env.zadd_reply_future = none) →
          (ReadUserReviews_join env st req_id user_id review_ids redis_update_map).result =
            .ok reviews)) ∧
      (∀ reviews,
        (ReadUserReviews_join env st req_id user_id review_ids redis_update_map).result =
          .ok reviews →
        (ReadUserReviews_review_future env req_id review_ids).1 = .ok reviews ∧
          (redis_update_map.isEmpty = true ∨
            (env.redis_client_wrapper_update = true ∧ env.update_commit = none ∧
              env.zadd_reply_future = none))) ∧
      (redis_update_map.isEmpty = false → env.redis_client_wrapper_update = false →
        (ReadUserReviews_join env st req_id user_id review_ids redis_update_map).result =
          .error (.ServiceException .SE_REDIS_ERROR "Cannot connected to Redis server")) ∧
      (redis_update_map.isEmpty = false → env.redis_client_wrapper_update = true →
        ∀ e, env.update_commit = some e →
        (ReadUserReviews_join env st req_id user_id review_ids redis_update_map).result =
          .error e) := by
  refine ⟨?_, ?_, ?_, ?_⟩
  · intro hiss
    unfold ReadUserReviews_join
    simp only []
    rcases hiss with he | ⟨hw, hc⟩
    · simp only [he, if_true]
      refine ⟨fun e h => h, ?_, fun reviews h _ => h⟩
      intro reviews e _ h2
      simp at h2
    · cases he : redis_update_map.isEmpty
      · simp only [Bool.false_eq_true, if_false, hw, Bool.not_true, hc]
        refine ⟨?_, ?_, ?_⟩
        · intro e h; simp only [h]
        · intro reviews e h _ hz; simp only [h, hz]
        · intro reviews h hz
          rcases hz with hz | hz
          · simp at hz
          · simp only [h, hz]
      · simp only [if_true]
        refine ⟨fun e h => h, ?_, fun reviews h _ => h⟩
        intro reviews e _ h2
        simp at h2
  · intro reviews hok
    unfold ReadUserReviews_join at hok
    simp only [] at hok
    cases he : redis_update_map.isEmpty
    · simp only [he, Bool.false_eq_true, if_false] at hok
      cases hw : env.redis_client_wrapper_update
      · simp [hw] at hok
      · simp only [hw, Bool.not_true, Bool.false_eq_true, if_false] at hok
        cases hc : env.update_commit with
        | some e => simp [hc] at hok
        | none =>
          simp only [hc] at hok
          cases hr : (ReadUserReviews_review_future env req_id review_ids).1 with
          | error e => simp [hr] at hok
          | ok rs =>
            simp only [hr] at hok
            cases hz : env.zadd_reply_future with
            | some e => simp [hz] at hok
            | none =>
              simp only [hz] at hok
              have hrs : rs = reviews := by simpa using hok
              subst hrs
              exact ⟨rfl, Or.inr ⟨rfl, rfl, rfl⟩⟩
    · simp only [he, if_true] at hok
      exact ⟨hok, Or.inl rfl⟩
  · intro he hw
    unfold ReadUserReviews_join
    simp only [he, hw, Bool.false_eq_true, if_false, Bool.not_false, if_true]
  · intro he hw e hc
    unfold ReadUserReviews_join
    simp only [he, hw, hc, Bool.false_eq_true, if_false, Bool.not_true]

/-- C18 (counterexample): the error of a failed review-content call can be
replaced by an error of the cache rebuild. User 7 has one review in the durable
store and a cold cache; the read of `[0, 1)` falls back to the store, the
review-content call is issued and throws, and the cache pool yields no
connection for the rebuild: `ReadUserReviews` fails with `SE_REDIS_ERROR`, thrown
before the join, not with the content call's error. -/
theorem ReadUserReviews_rebuild_pool_error_replaces_content_error :
    (ReadUserReviews_review_future .content_and_rebuild_pool_down 1 [100]).1 =
        .error (.other "TTransportException") ∧
      Event.ReadReviews 1 [100] ∈
        (ReadUserReviews .content_and_rebuild_pool_down
          (after_uploads ⟨0⟩ .cache_down 7 .empty [(100, 10)]) 1 7 0 1).trace ∧
      (ReadUserReviews .content_and_rebuild_pool_down
          (after_uploads ⟨0⟩ .cache_down 7 .empty [(100, 10)]) 1 7 0 1).result =
        .error (.ServiceException .SE_REDIS_ERROR "Cannot connected to Redis server") ∧
      Exn.ServiceException .SE_REDIS_ERROR "Cannot connected to Redis server" ≠
        .other "TTransportException" := by
  refine ⟨rfl, by decide, rfl, by decide⟩

/-- C18 (amended): join policy of the read path, for a call that got past the
cache query and the durable-store fallback, `p` being the id list and the
rebuild map it holds then. When no rebuild is needed or the rebuild was issued
(it got its connection and its commit did not throw): if the review-content call
fails, `ReadUserReviews` fails with the content call's error, whatever the
rebuild's reply; if the content call succeeds and the reply of an issued rebuild
fails, it fails with the rebuild's error; else it returns the reviews. It
succeeds only when the content call succeeded and the rebuild, if one was
needed, was issued and its reply succeeded. A rebuild that cannot be issued
fails the call at once, before the join: with `SE_REDIS_ERROR` when the cache
pool yields no connection, with the exception of `commit()` when that throws. -/
theorem ReadUserReviews_join_policy (env : ReadUserReviewsEnv) (st : UserReviewState)
    (req_id user_id start stop : Int) (p : List Int × List (Int × Int))
    (h0 : 0 ≤ start) (h1 : start < stop)
    (hw : env.redis_client_wrapper = true) (hc : env.commit = none)
    (hf : env.review_ids_future = none)
    (hfill : (ReadUserReviews_fill env st user_id start stop
      (zrevrange (st.redis user_id) start (stop - 1))).1 = .ok p) :
    ((p.2.isEmpty = true ∨
          (env.redis_client_wrapper_update = true ∧ env.update_commit = none)) →
        (∀ e, (ReadUserReviews_review_future env req_id p.1).1 = .error e →
          (ReadUserReviews env st req_id user_id start stop).result = .error e) ∧
        (∀ reviews e, (ReadUserReviews_review_future env req_id p.1).1 = .ok reviews →
          p.2.isEmpty = false → env.zadd_reply_future = some e →
          (ReadUserReviews env st req_id user_id start stop).result = .error e) ∧
        (∀ reviews, (ReadUserReviews_review_future env req_id p.1).1 = .ok reviews →
          (p.2.isEmpty = true ∨ env.zadd_reply_future = none) →
          (ReadUserReviews env st req_id user_id start stop).result = .ok reviews)) ∧
      (∀ reviews, (ReadUserReviews env st req_id user_id start stop).result = .ok reviews →
        (ReadUserReviews_review_future env req_id p.1).1 = .ok reviews ∧
          (p.2.isEmpty = true ∨
            (env.redis_client_wrapper_update = true ∧ env.update_commit = none ∧
              env.zadd_reply_future = none))) ∧
      (p.2.isEmpty = false → env.redis_client_wrapper_update = false →
        (ReadUserReviews env st req_id user_id start stop).result =
          .error (.ServiceException .SE_REDIS_ERROR "Cannot connected to Redis server")) ∧
      (p.2.isEmpty = false → env.redis_client_wrapper_update = true →
        ∀ e, env.update_commit = some e →
        (ReadUserReviews env st req_id user_id start stop).result = .error e) := by
  rw [ReadUserReviews_result_eq_join env st req_id user_id start stop p h0 h1 hw hc hf hfill]
  exact ReadUserReviews_join_policy_stage env st req_id user_id p.1 p.2

/-- Witness of C18 (amended): the review-content call fails and the reply of the
issued rebuild fails too; the call fails with the content call's error. -/
theorem ReadUserReviews_join_policy_witness :
    (ReadUserReviews_fill .content_and_reply_fail
        (after_uploads ⟨0⟩ .cache_down 7 .empty [(100, 10)]) 7 0 1
        (zrevrange ((after_uploads ⟨0⟩ .cache_down 7 .empty [(100, 10)]).redis 7) 0 (1 - 1))).1 =
        .ok ([100], [(10, 100)]) ∧
      (ReadUserReviews_review_future .content_and_reply_fail 1 [100]).1 =
        .error (.other "TTransportException") ∧
      ReadUserReviewsEnv.content_and_reply_fail.zadd_reply_future =
        some (.other "cpp_redis::redis_error") ∧
      (ReadUserReviews .content_and_reply_fail
          (after_uploads ⟨0⟩ .cache_down 7 .empty [(100, 10)]) 1 7 0 1).result =
        .error (.other "TTransportException") :=
  ⟨rfl, rfl, rfl,
    ((ReadUserReviews_join_policy .content_and_reply_fail
      (after_uploads ⟨0⟩ .cache_down 7 .empty [(100, 10)]) 1 7 0 1 ([100], [(10, 100)])
      (by decide) (by decide) rfl rfl rfl rfl).1 (Or.inr ⟨rfl, rfl⟩)).1 _ rfl⟩

end media_service
